import Mathlib

/-!
Verification development for the `storage-facade-localstorage` adapter
(`src/index.ts`).  The adapter persists namespaced key/value data into the
browser `window.localStorage`, keeping per-namespace bookkeeping: a JSON
encoded ordered key index at the physical key `__<name>-keys-array`, one
JSON encoded wrapped value `{value: ...}` per logical key at the physical
key `<name>-<key>`, and an optional in-memory cache mirror.

Modelling conventions:
* `localStorage` is a string-keyed store.  The adapter only ever writes two
  shapes of JSON text: the key index (a JSON array of strings) and a wrapped
  value object.  Both encodings are injective and have disjoint images, so
  the medium is modelled as a map from physical keys to the structured
  content `StoredStr` of such a text; equality of `StoredStr` coincides with
  byte-for-byte equality of the persisted texts.
* JavaScript values are modelled by the representative universe `JSVal`;
  `undefined` and `null` are distinct values, as in JS.  `structuredClone` is a
  deep copy, which on immutable model values is the identity.
* A thrown JS exception is modelled with `Except`.  In every operation of
  the source, the possible throws (`Error` in `getKeysArray`, the reserved
  key `Error` in `setItemSync`) happen before the first mutation, so an
  erroneous call leaves both the instance and the medium unchanged and the
  `Except.error` result carries no new state.
-/

namespace StorageFacadeLS

/-- Representative universe of JavaScript values stored through the façade.
`undefined` models `undefined` and `null` models `null`; the two are distinct. -/
inductive JSVal where
  | undefined
  | null
  | bool (b : Bool)
  | num (n : Int)
  | str (s : String)
deriving DecidableEq

/-- Structured content of the JSON texts the adapter writes to the medium.
`keysArr ks` stands for the text `JSON.stringify(ks)` of a string array and
`wrapped v` for the text `JSON.stringify({value: v})` (for `v = undefined` the
serializer drops the field and the text is just the empty object).  These
encodings are injective, so `StoredStr` equality is text equality. -/
inductive StoredStr where
  | keysArr (keys : List String)
  | wrapped (value : JSVal)
deriving DecidableEq

/-- The shared `window.localStorage` medium: a flat string-keyed store. -/
abbrev Medium := String → Option StoredStr

/-- An empty medium. -/
def Medium.empty : Medium := fun _ => none

/-- `localStorage.getItem`. -/
def Medium.getItem (m : Medium) (k : String) : Option StoredStr := m k

/-- `localStorage.setItem`. -/
def Medium.setItem (m : Medium) (k : String) (v : StoredStr) : Medium :=
  fun p => if p = k then some v else m p

/-- `localStorage.removeItem`. -/
def Medium.removeItem (m : Medium) (k : String) : Medium :=
  fun p => if p = k then none else m p

/-- The JS `Error` values the adapter can throw, distinguished by the message
they are built with in the source:
* `indexNotFound n` is `Error("storage-facade: LocalStorageInterface: <n> not found.")`
  thrown by `getKeysArray` when the key index is absent;
* `reservedKey k` is `Error("storage-facade: LocalStorageInterface: key <k> cannot be used.")`
  thrown by `setItemSync`;
* `notAStringArray n` is a modelling artefact: in JS, `JSON.parse` of a
  wrapped-value text succeeds and the unchecked cast `as string[]` hands a
  non-array onward, which makes every caller fail with a `TypeError` (or
  behave nonsensically) downstream.  No theorem in this file exercises that
  branch: in every state the theorems touch, the index slot holds an index. -/
inductive JSError where
  | indexNotFound (keysArrayName : String)
  | reservedKey (key : String)
  | notAStringArray (keysArrayName : String)
deriving DecidableEq

/-- `interfaceName` class field (constant). -/
def interfaceName : String := "LocalStorageInterface"

/-- `defaultUseCache` from the source. -/
def defaultUseCache : Bool := false

/-- Modelled from the spec: `defaultStorageName` is imported from the
`storage-facade` dependency, whose source is not part of this repository.
The README documents the default storage name as `storage`. -/
def defaultStorageName : String := "storage"

/-- The mutable fields of a `LocalStorageInterface` instance, with the field
initializers of the class as default values.  `keyValueCache` models the JS
`Map<string, unknown>` (a map can hold `undefined` as a present value, hence
`Option JSVal` with `some .undefined` distinct from `none`). -/
@[ext]
structure LocalStorageInterface where
  storageName : String := ""
  keysArrayName : String := ""
  useCache : Bool := defaultUseCache
  keysArrayCache : List String := []
  keyValueCache : String → Option JSVal := fun _ => none

/-- `new LocalStorageInterface()`: a freshly constructed instance. -/
def newInterface : LocalStorageInterface := {}

/-- The setup record consumed by `initSync` (`name` and `useCache` fields;
an absent field is `none`). -/
structure Setup where
  name : Option String := none
  useCache : Option Bool := none

/-- `keyName`: physical key of a logical key. -/
def LocalStorageInterface.keyName
    (self : LocalStorageInterface) (key : String) : String :=
  self.storageName ++ "-" ++ key

/-- `getKeysArray`: read the key index from the medium; throw if absent;
with caching enabled also store it into `keysArrayCache`. -/
def getKeysArray (self : LocalStorageInterface) (m : Medium) :
    Except JSError (List String × LocalStorageInterface) :=
  match m.getItem self.keysArrayName with
  | none => .error (.indexNotFound self.keysArrayName)
  | some (.keysArr keys) =>
      .ok (keys, if self.useCache then { self with keysArrayCache := keys } else self)
  | some (.wrapped _) => .error (.notAStringArray self.keysArrayName)

/-- `initSync` over a medium that does not throw (the `try/catch` of the
source is dead code for such a medium; `initSyncF` below embeds the same
function over a fallible medium).  Returns the `Error | undefined` result
together with the updated instance and medium. -/
def initSync (self : LocalStorageInterface) (setup : Setup) (m : Medium) :
    Option JSError × LocalStorageInterface × Medium :=
  let self := { self with
    storageName := setup.name.getD defaultStorageName,
    useCache := setup.useCache.getD defaultUseCache }
  let self := { self with
    keysArrayName := "__" ++ self.storageName ++ "-keys-array" }
  match m.getItem self.keysArrayName with
  | none =>
      -- Create keysArray in storage
      (none, self, m.setItem self.keysArrayName (.keysArr []))
  | some (.keysArr keysArray) =>
      -- Load keysArray to cache
      (none, if self.useCache then { self with keysArrayCache := keysArray } else self, m)
  | some (.wrapped _) =>
      -- See the comment on `JSError.notAStringArray`; never reached by a
      -- theorem of this file.
      if self.useCache then (some (.notAStringArray self.keysArrayName), self, m)
      else (none, self, m)

/-- The `this.useCache ? this.keysArrayCache : this.getKeysArray()` ternary
shared verbatim by `setItemSync`, `removeItemSync`, `clearSync`, `sizeSync`
and `keySync`. -/
def currentKeys (self : LocalStorageInterface) (m : Medium) :
    Except JSError (List String × LocalStorageInterface) :=
  if self.useCache then .ok (self.keysArrayCache, self) else getKeysArray self m

/-- The value produced by `const { value } = JSON.parse(valueStr)` on a
stored text: a wrapped text yields its `value` field (for the text of
`wrapped undefined`, the empty object, the absent field destructures to
`undefined`); an index text parses to an array, which has no `value`
property, so destructuring yields `undefined`. -/
def decodeEntry : StoredStr → JSVal
  | .wrapped v => v
  | .keysArr _ => .undefined

/-- `getItemSync`: cache hit returns a clone of the cached value; otherwise
read the entry from the medium, `undefined` when absent, else decode and
(with caching) populate the value cache.  Never throws and never writes to
the medium; returns the value together with the (possibly cache-updated)
instance. -/
def getItemSync (self : LocalStorageInterface) (m : Medium) (key : String) :
    JSVal × LocalStorageInterface :=
  if self.useCache && (self.keyValueCache key).isSome then
    ((self.keyValueCache key).getD .undefined, self)
  else
    match m.getItem (self.keyName key) with
    | none => (.undefined, self)
    | some stored =>
        let value := decodeEntry stored
        (value,
          if self.useCache then
            { self with keyValueCache :=
                fun p => if p = key then some value else self.keyValueCache p }
          else self)

/-- `setItemSync`: reject the reserved index key, ensure the key is in the
index (appending and persisting the index only when the key is new), write
the wrapped entry, and with caching update both mirrors. -/
def setItemSync (self : LocalStorageInterface) (m : Medium)
    (key : String) (value : JSVal) :
    Except JSError (LocalStorageInterface × Medium) :=
  if key = self.keysArrayName then
    .error (.reservedKey key)
  else do
    let (keysArray, self) ← currentKeys self m
    let (self, m) :=
      if ! keysArray.contains key then
        let keysArray := keysArray ++ [key]
        -- Update keys array in storage
        let m := m.setItem self.keysArrayName (.keysArr keysArray)
        -- Update keysArray cache
        (if self.useCache then { self with keysArrayCache := keysArray } else self, m)
      else (self, m)
    -- Update storage
    let m := m.setItem (self.keyName key) (.wrapped value)
    -- Update keyValue cache
    let self :=
      if self.useCache then
        { self with keyValueCache :=
            fun p => if p = key then some value else self.keyValueCache p }
      else self
    .ok (self, m)

/-- `removeItemSync`: filter the key out of the index, persist the index
unconditionally, delete the entry, and with caching update both mirrors. -/
def removeItemSync (self : LocalStorageInterface) (m : Medium) (key : String) :
    Except JSError (LocalStorageInterface × Medium) := do
  let (keysArray, self) ← currentKeys self m
  let updatedKeysArray := keysArray.filter (fun savedKey => savedKey != key)
  -- Update keys array in storage
  let m := m.setItem self.keysArrayName (.keysArr updatedKeysArray)
  -- Delete key from storage
  let m := m.removeItem (self.keyName key)
  -- Update cache
  let self :=
    if self.useCache then
      { self with
        keyValueCache := fun p => if p = key then none else self.keyValueCache p,
        keysArrayCache := updatedKeysArray }
    else self
  .ok (self, m)

/-- `clearSync`: delete every entry listed in the current index, persist an
empty index, and with caching empty both mirrors. -/
def clearSync (self : LocalStorageInterface) (m : Medium) :
    Except JSError (LocalStorageInterface × Medium) := do
  let (keysArray, self) ← currentKeys self m
  -- Update storage
  let m := keysArray.foldl (fun acc key => acc.removeItem (self.keyName key)) m
  -- Update keys array
  let m := m.setItem self.keysArrayName (.keysArr [])
  -- Update cache
  let self :=
    if self.useCache then
      { self with keyValueCache := fun _ => none, keysArrayCache := [] }
    else self
  .ok (self, m)

/-- `sizeSync`: length of the current index. -/
def sizeSync (self : LocalStorageInterface) (m : Medium) :
    Except JSError (Nat × LocalStorageInterface) := do
  let (keysArray, self) ← currentKeys self m
  .ok (keysArray.length, self)

/-- JS array indexing `arr[index]` with a JS number index: `undefined` when
the index is negative or past the end. -/
def listGetJS (l : List String) (index : Int) : Option String :=
  if 0 ≤ index then l.get? index.toNat else none

/-- `keySync`: element of the current index at `index`, `undefined` when out
of range (the TS return type `string` notwithstanding). -/
def keySync (self : LocalStorageInterface) (m : Medium) (index : Int) :
    Except JSError (Option String × LocalStorageInterface) := do
  let (keysArray, self) ← currentKeys self m
  .ok (listGetJS keysArray index, self)

/-- A medium whose primitives may throw (e.g. storage disabled, quota
exceeded): the data of a `Medium` together with failure oracles for the two
primitives `initSync` uses, and the exception value thrown on failure.  A
failed `setItem` writes nothing. -/
structure FMedium where
  data : String → Option StoredStr
  getFails : String → Bool
  setFails : String → Bool
  exn : JSError

/-- `localStorage.getItem` on a fallible medium. -/
def FMedium.getItemF (fm : FMedium) (k : String) :
    Except JSError (Option StoredStr) :=
  if fm.getFails k then .error fm.exn else .ok (fm.data k)

/-- `localStorage.setItem` on a fallible medium. -/
def FMedium.setItemF (fm : FMedium) (k : String) (v : StoredStr) :
    Except JSError FMedium :=
  if fm.setFails k then .error fm.exn
  else .ok { fm with data := fun p => if p = k then some v else fm.data p }

/-- `initSync` embedded over a fallible medium: the `try` body is the
`Except` computation and the `catch` clause converts a thrown exception into
the returned `Error` value, so the function itself never throws.  Whenever a
primitive throws, no mutation has happened yet, so the original medium and
instance are returned alongside the captured error. -/
def initSyncF (self : LocalStorageInterface) (setup : Setup) (fm : FMedium) :
    Option JSError × LocalStorageInterface × FMedium :=
  let self := { self with
    storageName := setup.name.getD defaultStorageName,
    useCache := setup.useCache.getD defaultUseCache }
  let self := { self with
    keysArrayName := "__" ++ self.storageName ++ "-keys-array" }
  let body : Except JSError (LocalStorageInterface × FMedium) := do
    let keysStr ← fm.getItemF self.keysArrayName
    match keysStr with
    | none => do
        -- Create keysArray in storage
        let fm ← fm.setItemF self.keysArrayName (.keysArr [])
        .ok (self, fm)
    | some (.keysArr keysArray) =>
        -- Load keysArray to cache
        .ok (if self.useCache then { self with keysArrayCache := keysArray } else self, fm)
    | some (.wrapped _) =>
        -- See the comment on `JSError.notAStringArray`.
        if self.useCache then .error (.notAStringArray self.keysArrayName)
        else .ok (self, fm)
  match body with
  | .ok (self, fm) => (none, self, fm)
  | .error e => (some e, self, fm)

/-- The public adapter operations dispatched by the façade after
initialization, with their arguments. -/
inductive Op where
  | get (key : String)
  | set (key : String) (value : JSVal)
  | remove (key : String)
  | clear
  | size
  | keyAt (index : Int)

/-- Run one operation, keeping only its effect on the instance and the
medium (the values returned by `get`/`size`/`keyAt` do not affect state). -/
def Op.apply (op : Op) (self : LocalStorageInterface) (m : Medium) :
    Except JSError (LocalStorageInterface × Medium) :=
  match op with
  | .get key => let r := getItemSync self m key; .ok (r.2, m)
  | .set key value => setItemSync self m key value
  | .remove key => removeItemSync self m key
  | .clear => clearSync self m
  | .size => (sizeSync self m).map fun r => (r.2, m)
  | .keyAt index => (keySync self m index).map fun r => (r.2, m)

/-- Run a caller-issued sequence of operations.  A thrown exception
propagates to the caller and, as noted above, leaves the store unchanged;
the sequence continues with the next operation the caller issues. -/
def runOps (ops : List Op) (self : LocalStorageInterface) (m : Medium) :
    LocalStorageInterface × Medium :=
  match ops with
  | [] => (self, m)
  | op :: rest =>
      match op.apply self m with
      | .ok r => runOps rest r.1 r.2
      | .error _ => runOps rest self m

/-- The operation is a `get` or a `set`. -/
def Op.isGetSet : Op → Prop
  | .get _ => True
  | .set _ _ => True
  | _ => False

/-- The operation is a `set` of the given key. -/
def Op.setsKey (op : Op) (k : String) : Prop :=
  match op with
  | .set k2 _ => k2 = k
  | _ => False

/-- The instance's `keysArrayName` has the shape `initSync` computes for its
`storageName`; `initSync` establishes this and no operation changes it. -/
def WellNamed (self : LocalStorageInterface) : Prop :=
  self.keysArrayName = "__" ++ self.storageName ++ "-keys-array"

/-- Cache coherence: with caching enabled, the cached key index is exactly
the persisted key index, and every key present in the value cache has a
physically persisted entry whose decoded value is the cached value. -/
def CacheInv (self : LocalStorageInterface) (m : Medium) : Prop :=
  self.useCache = true →
    (m.getItem self.keysArrayName = some (.keysArr self.keysArrayCache) ∧
     ∀ k v, self.keyValueCache k = some v →
       ∃ s, m.getItem (self.keyName k) = some s ∧ decodeEntry s = v)

/-- Spec-side index (refinement target), following the spec's words: the
index lists the distinct keys in order of first insertion; re-setting a
present key keeps the index unchanged; `remove` filters the key out. -/
def specIndex : List Op → List String → List String
  | [], acc => acc
  | .set k _ :: rest, acc =>
      specIndex rest (if k ∈ acc then acc else acc ++ [k])
  | .remove k :: rest, acc => specIndex rest (acc.filter (fun s => s != k))
  | _ :: rest, acc => specIndex rest acc

/-- The string contains no hyphen. -/
def hyphenFree (s : String) : Bool :=
  s.data.all (fun c => c != '-')

/-- The string starts with two underscores. -/
def startsWithUU (s : String) : Bool :=
  match s.data with
  | '_' :: '_' :: _ => true
  | _ => false

/-- Number of leading underscores of a character list. -/
def luCount : List Char → Nat
  | [] => 0
  | c :: cs => if c = '_' then luCount cs + 1 else 0

section Cex

/-! Concrete states for the namespace-collision counterexample: namespace
`"x"` holding logical key `"y-k"` and namespace `"x-y"` holding logical key
`"k"` share the physical key `"x-y-k"`. -/

/-- Instance for namespace `"x"`, caching off, as `initSync` builds it. -/
def cexStA : LocalStorageInterface :=
  { storageName := "x", keysArrayName := "__x-keys-array", useCache := false }

/-- Instance for namespace `"x-y"`, caching off, as `initSync` builds it. -/
def cexStB : LocalStorageInterface :=
  { storageName := "x-y", keysArrayName := "__x-y-keys-array", useCache := false }

/-- Medium after initializing namespace `"x"` on an empty medium. -/
def cexMA : Medium := Medium.empty.setItem "__x-keys-array" (.keysArr [])

/-- Medium after `set "y-k" 1` on namespace `"x"`. -/
def cexMB : Medium :=
  (cexMA.setItem "__x-keys-array" (.keysArr ["y-k"])).setItem
    "x-y-k" (.wrapped (.num 1))

/-- Medium after initializing namespace `"x-y"`. -/
def cexMC : Medium := cexMB.setItem "__x-y-keys-array" (.keysArr [])

/-- Medium after `set "k" 2` on namespace `"x-y"`. -/
def cexMD : Medium :=
  (cexMC.setItem "__x-y-keys-array" (.keysArr ["k"])).setItem
    "x-y-k" (.wrapped (.num 2))

/-- Medium after `clear()` on namespace `"x"`: the entry of namespace
`"x-y"` at physical key `"x-y-k"` has been removed. -/
def cexMF : Medium :=
  (cexMD.removeItem "x-y-k").setItem "__x-keys-array" (.keysArr [])

end Cex

section Demo

/-! Concrete states used by the witness theorems. -/

/-- A demo instance for namespace `"ns"` with caching disabled. -/
def demoNC : LocalStorageInterface :=
  { storageName := "ns", keysArrayName := "__ns-keys-array", useCache := false }

/-- A demo instance for namespace `"ns"` with caching enabled, mirroring
`demoM1` below. -/
def demoC : LocalStorageInterface :=
  { storageName := "ns", keysArrayName := "__ns-keys-array", useCache := true,
    keysArrayCache := ["a"],
    keyValueCache := fun p => if p = "a" then some (.num 7) else none }

/-- Medium holding an empty index for namespace `"ns"`. -/
def demoM0 : Medium := Medium.empty.setItem "__ns-keys-array" (.keysArr [])

/-- Medium for namespace `"ns"` holding the single logical key `"a"`. -/
def demoM1 : Medium :=
  (demoM0.setItem "__ns-keys-array" (.keysArr ["a"])).setItem
    "ns-a" (.wrapped (.num 7))

end Demo

/-- Demo instance for a second namespace `"other"`, caching off. -/
def demoB : LocalStorageInterface :=
  { storageName := "other", keysArrayName := "__other-keys-array",
    useCache := false }

/-- Medium produced by `clear()` on `demoNC` over `demoM1`. -/
def demoM2 : Medium :=
  ((["a"] : List String).foldl
      (fun acc key => acc.removeItem (demoNC.keyName key)) demoM1).setItem
    demoNC.keysArrayName (.keysArr [])

/-- Instance state after `set "b" null` on `demoC`. -/
def demoC2 : LocalStorageInterface :=
  { demoC with
    keysArrayCache := ["a", "b"],
    keyValueCache := fun p => if p = "b" then some .null
      else demoC.keyValueCache p }

/-- Medium after `set "b" null` on `demoC` over `demoM1`. -/
def demoM3 : Medium :=
  (demoM1.setItem demoC.keysArrayName (.keysArr ["a", "b"])).setItem
    (demoC.keyName "b") (.wrapped .null)

/-- Medium after `set "a" null` on the freshly initialized `demoNC`. -/
def demoM4 : Medium :=
  (demoM0.setItem demoNC.keysArrayName (.keysArr ["a"])).setItem
    (demoNC.keyName "a") (.wrapped .null)

/-- The operation is a `set` of a non-reserved key or a `remove`. -/
def Op.okSetRemove (op : Op) (kan : String) : Prop :=
  match op with
  | .set k _ => k ≠ kan
  | .remove _ => True
  | _ => False

/-- A fallible medium whose every read raises (e.g. storage disabled). -/
def fmFailGet : FMedium :=
  { data := Medium.empty, getFails := fun _ => true,
    setFails := fun _ => false, exn := .indexNotFound "disabled" }

/-- A fallible medium that never raises and holds nothing. -/
def fmOkEmpty : FMedium :=
  { data := Medium.empty, getFails := fun _ => false,
    setFails := fun _ => false, exn := .indexNotFound "disabled" }


/-! ### Medium lemmas -/

@[simp]
theorem Medium.getItem_setItem_self (m : Medium) (k : String) (v : StoredStr) :
    (m.setItem k v).getItem k = some v := by
  simp [Medium.setItem, Medium.getItem]

theorem Medium.getItem_setItem_ne (m : Medium) {p k : String} (h : p ≠ k)
    (v : StoredStr) : (m.setItem k v).getItem p = m.getItem p := by
  simp [Medium.setItem, Medium.getItem, h]

@[simp]
theorem Medium.getItem_removeItem_self (m : Medium) (k : String) :
    (m.removeItem k).getItem k = none := by
  simp [Medium.removeItem, Medium.getItem]

theorem Medium.getItem_removeItem_ne (m : Medium) {p k : String} (h : p ≠ k) :
    (m.removeItem k).getItem p = m.getItem p := by
  simp [Medium.removeItem, Medium.getItem, h]

theorem foldl_removeItem_getItem (f : String → String) (p : String) :
    ∀ (keys : List String) (m : Medium),
      (keys.foldl (fun acc key => acc.removeItem (f key)) m).getItem p =
        if ∃ q ∈ keys, f q = p then none else m.getItem p
  | [], m => by simp
  | q :: rest, m => by
    rw [List.foldl_cons, foldl_removeItem_getItem f p rest]
    by_cases hq : f q = p
    · subst hq
      simp
    · simp only [Medium.getItem_removeItem_ne m (Ne.symm hq)]
      simp [hq]

/-! ### Physical-key disjointness lemmas -/

theorem luCount_append_dash (A B : List Char) :
    luCount (A ++ '-' :: B) = luCount A := by
  induction A with
  | nil => simp [luCount]
  | cons c cs ih => by_cases h : c = '_' <;> simp [luCount, h, ih]

/-- Within one namespace, no entry key equals the index key: the index key
has exactly two more leading underscores than any entry key. -/
theorem keyName_ne_indexKey (n k : String) :
    n ++ "-" ++ k ≠ "__" ++ n ++ "-keys-array" := by
  intro h
  have h2 := congrArg String.data h
  simp only [String.data_append] at h2
  have h1 := congrArg luCount h2
  simp only [List.append_assoc, List.singleton_append, List.cons_append,
    List.nil_append] at h1
  rw [luCount_append_dash] at h1
  simp [luCount, luCount_append_dash] at h1
  omega

theorem keyName_ne_keysArrayName {st : LocalStorageInterface}
    (hw : WellNamed st) (k : String) : st.keyName k ≠ st.keysArrayName := by
  rw [LocalStorageInterface.keyName, hw]
  exact keyName_ne_indexKey st.storageName k

/-- `keyName` is injective in the logical key for a fixed namespace. -/
theorem keyName_inj {st : LocalStorageInterface} {k1 k2 : String}
    (h : st.keyName k1 = st.keyName k2) : k1 = k2 := by
  have h2 := congrArg String.data h
  simp only [LocalStorageInterface.keyName, String.data_append,
    List.append_assoc] at h2
  have h3 := List.append_cancel_left h2
  simp only [List.singleton_append, List.cons.injEq, true_and] at h3
  exact String.ext h3

/-- Hyphen-free cancellation: two hyphen-free prefixes followed by a hyphen
coincide. -/
theorem hf_cancel {A B x y : List Char}
    (hA : '-' ∉ A) (hB : '-' ∉ B)
    (h : A ++ '-' :: x = B ++ '-' :: y) : A = B ∧ x = y := by
  induction A generalizing B with
  | nil =>
    cases B with
    | nil => simpa using h
    | cons b B' =>
      simp at h hB
      exact absurd h.1 hB.1
  | cons a A' ih =>
    cases B with
    | nil =>
      simp at h hA
      exact absurd h.1.symm hA.1
    | cons b B' =>
      simp at h hA hB
      obtain ⟨rfl, h2⟩ := h
      obtain ⟨h3, h4⟩ := ih hA.2 hB.2 h2
      exact ⟨by rw [h3], h4⟩

theorem hyphenFree_not_mem {s : String} (h : hyphenFree s = true) :
    '-' ∉ s.data := by
  simp only [hyphenFree, List.all_eq_true] at h
  intro hm
  have := h _ hm
  simp at this

/-- Entry keys of two distinct hyphen-free namespaces never collide. -/
theorem keyName_disjoint {a b : String} (ha : hyphenFree a = true)
    (hb : hyphenFree b = true) (hne : a ≠ b) (x y : String) :
    a ++ "-" ++ x ≠ b ++ "-" ++ y := by
  intro h
  have h2 := congrArg String.data h
  simp only [String.data_append, List.append_assoc, List.singleton_append] at h2
  exact hne (String.ext (hf_cancel (hyphenFree_not_mem ha)
    (hyphenFree_not_mem hb) h2).1)

/-- An entry key of a namespace whose name does not start with `__` never
collides with any index key. -/
theorem keyName_ne_other_indexKey {a : String} (ha : startsWithUU a = false)
    (x b : String) : a ++ "-" ++ x ≠ "__" ++ b ++ "-keys-array" := by
  intro h
  have h2 := congrArg String.data h
  simp only [String.data_append, List.append_assoc, List.singleton_append] at h2
  rcases hA : a.data with _ | ⟨c1, _ | ⟨c2, t⟩⟩
  · rw [hA] at h2
    simp at h2
  · rw [hA] at h2
    simp at h2
  · rw [hA] at h2
    simp at h2
    obtain ⟨rfl, rfl, -⟩ := h2
    rw [startsWithUU, hA] at ha
    simp at ha

/-- Index keys of distinct namespaces are distinct. -/
theorem indexKey_inj {a b : String}
    (h : "__" ++ a ++ "-keys-array" = "__" ++ b ++ "-keys-array") : a = b := by
  have h2 := congrArg String.data h
  simp only [String.data_append, List.append_assoc] at h2
  have h3 := List.append_cancel_left h2
  exact String.ext (List.append_cancel_right h3)

/-! ### Characterization of the operations -/

theorem currentKeys_cache {st : LocalStorageInterface}
    (hc : st.useCache = true) (m : Medium) :
    currentKeys st m = .ok (st.keysArrayCache, st) := by
  simp [currentKeys, hc]

theorem currentKeys_nocache {st : LocalStorageInterface}
    (hc : st.useCache = false) {m : Medium} {ks : List String}
    (hm : m.getItem st.keysArrayName = some (.keysArr ks)) :
    currentKeys st m = .ok (ks, st) := by
  simp [currentKeys, hc, getKeysArray, hm]

theorem currentKeys_notFound {st : LocalStorageInterface}
    (hc : st.useCache = false) {m : Medium}
    (hm : m.getItem st.keysArrayName = none) :
    currentKeys st m = .error (.indexNotFound st.keysArrayName) := by
  simp [currentKeys, hc, getKeysArray, hm]

/-- Whenever `currentKeys` succeeds, the instance it returns is unchanged,
and the key list is the cache (caching on) or the persisted index. -/
theorem currentKeys_self {st st0 : LocalStorageInterface} {m : Medium}
    {ks : List String} (h : currentKeys st m = .ok (ks, st0)) :
    st0 = st ∧ (st.useCache = true → ks = st.keysArrayCache) ∧
      (st.useCache = false → m.getItem st.keysArrayName = some (.keysArr ks)) := by
  by_cases hc : st.useCache
  · rw [currentKeys_cache hc] at h
    simp only [Except.ok.injEq, Prod.mk.injEq] at h
    obtain ⟨h1, h2⟩ := h
    subst h2
    simp_all
  · simp only [Bool.not_eq_true] at hc
    simp only [currentKeys, hc, Bool.false_eq_true, if_false, getKeysArray] at h
    cases hm : m.getItem st.keysArrayName with
    | none => rw [hm] at h; simp at h
    | some s =>
      cases s with
      | keysArr l => rw [hm] at h; simp [hc] at h; simp_all
      | wrapped v => rw [hm] at h; simp at h

theorem setItemSync_reserved (st : LocalStorageInterface) (m : Medium)
    {k : String} (v : JSVal) (hk : k = st.keysArrayName) :
    setItemSync st m k v = .error (.reservedKey k) := by
  simp [setItemSync, hk]

theorem setItemSync_err {st : LocalStorageInterface} {m : Medium}
    {k : String} (v : JSVal) {e : JSError} (hk : k ≠ st.keysArrayName)
    (hcur : currentKeys st m = .error e) :
    setItemSync st m k v = .error e := by
  simp [setItemSync, hk, hcur, Bind.bind, Except.bind]

theorem setItemSync_ok_new {st : LocalStorageInterface} {m : Medium}
    {k : String} {ks : List String} (v : JSVal)
    (hk : k ≠ st.keysArrayName) (hcur : currentKeys st m = .ok (ks, st))
    (hmem : k ∉ ks) :
    setItemSync st m k v = .ok
      ((if st.useCache then
          { st with
            keysArrayCache := ks ++ [k],
            keyValueCache := fun p => if p = k then some v else st.keyValueCache p }
        else st),
       (m.setItem st.keysArrayName (.keysArr (ks ++ [k]))).setItem
         (st.keyName k) (.wrapped v)) := by
  have hcont : ks.contains k = false := by simpa using hmem
  by_cases hc : st.useCache <;>
    simp [setItemSync, hk, hcur, Bind.bind, Except.bind, hcont, hmem, hc,
      LocalStorageInterface.keyName]

theorem setItemSync_ok_old {st : LocalStorageInterface} {m : Medium}
    {k : String} {ks : List String} (v : JSVal)
    (hk : k ≠ st.keysArrayName) (hcur : currentKeys st m = .ok (ks, st))
    (hmem : k ∈ ks) :
    setItemSync st m k v = .ok
      ((if st.useCache then
          { st with
            keyValueCache := fun p => if p = k then some v else st.keyValueCache p }
        else st),
       m.setItem (st.keyName k) (.wrapped v)) := by
  have hcont : ks.contains k = true := by simpa using hmem
  by_cases hc : st.useCache <;>
    simp [setItemSync, hk, hcur, Bind.bind, Except.bind, hcont, hmem, hc,
      LocalStorageInterface.keyName]

theorem removeItemSync_err {st : LocalStorageInterface} {m : Medium}
    (k : String) {e : JSError} (hcur : currentKeys st m = .error e) :
    removeItemSync st m k = .error e := by
  simp [removeItemSync, hcur, Bind.bind, Except.bind]

theorem removeItemSync_ok {st : LocalStorageInterface} {m : Medium}
    (k : String) {ks : List String}
    (hcur : currentKeys st m = .ok (ks, st)) :
    removeItemSync st m k = .ok
      ((if st.useCache then
          { st with
            keysArrayCache := ks.filter (fun savedKey => savedKey != k),
            keyValueCache := fun p => if p = k then none else st.keyValueCache p }
        else st),
       (m.setItem st.keysArrayName
          (.keysArr (ks.filter (fun savedKey => savedKey != k)))).removeItem
         (st.keyName k)) := by
  by_cases hc : st.useCache <;>
    simp [removeItemSync, hcur, Bind.bind, Except.bind, hc]

theorem clearSync_err {st : LocalStorageInterface} {m : Medium}
    {e : JSError} (hcur : currentKeys st m = .error e) :
    clearSync st m = .error e := by
  simp [clearSync, hcur, Bind.bind, Except.bind]

theorem clearSync_ok {st : LocalStorageInterface} {m : Medium}
    {ks : List String} (hcur : currentKeys st m = .ok (ks, st)) :
    clearSync st m = .ok
      ((if st.useCache then
          { st with keyValueCache := fun _ => none, keysArrayCache := [] }
        else st),
       (ks.foldl (fun acc key => acc.removeItem (st.keyName key)) m).setItem
         st.keysArrayName (.keysArr [])) := by
  by_cases hc : st.useCache <;>
    simp [clearSync, hcur, Bind.bind, Except.bind, hc]

theorem sizeSync_err {st : LocalStorageInterface} {m : Medium}
    {e : JSError} (hcur : currentKeys st m = .error e) :
    sizeSync st m = .error e := by
  simp [sizeSync, hcur, Bind.bind, Except.bind]

theorem sizeSync_ok {st : LocalStorageInterface} {m : Medium}
    {ks : List String} (hcur : currentKeys st m = .ok (ks, st)) :
    sizeSync st m = .ok (ks.length, st) := by
  simp [sizeSync, hcur, Bind.bind, Except.bind]

theorem keySync_err {st : LocalStorageInterface} {m : Medium}
    (i : Int) {e : JSError} (hcur : currentKeys st m = .error e) :
    keySync st m i = .error e := by
  simp [keySync, hcur, Bind.bind, Except.bind]

theorem keySync_ok {st : LocalStorageInterface} {m : Medium}
    {ks : List String} (i : Int) (hcur : currentKeys st m = .ok (ks, st)) :
    keySync st m i = .ok (listGetJS ks i, st) := by
  simp [keySync, hcur, Bind.bind, Except.bind]

theorem getItemSync_hit {st : LocalStorageInterface} {m : Medium}
    {k : String} {v : JSVal} (hc : st.useCache = true)
    (hv : st.keyValueCache k = some v) :
    getItemSync st m k = (v, st) := by
  simp [getItemSync, hc, hv]

theorem getItemSync_miss_none {st : LocalStorageInterface} {m : Medium}
    {k : String} (hcm : st.useCache = false ∨ st.keyValueCache k = none)
    (hm : m.getItem (st.keyName k) = none) :
    getItemSync st m k = (.undefined, st) := by
  rcases hcm with hc | hv
  · simp [getItemSync, hc, hm]
  · simp [getItemSync, hv, hm]

theorem getItemSync_miss_found {st : LocalStorageInterface} {m : Medium}
    {k : String} {s : StoredStr}
    (hcm : st.useCache = false ∨ st.keyValueCache k = none)
    (hm : m.getItem (st.keyName k) = some s) :
    getItemSync st m k = (decodeEntry s,
      if st.useCache then
        { st with keyValueCache :=
            fun p => if p = k then some (decodeEntry s) else st.keyValueCache p }
      else st) := by
  rcases hcm with hc | hv
  · simp [getItemSync, hc, hm]
  · simp [getItemSync, hv, hm]

/-! ### Claim C4 -/

/-- Claim C4: on an initialized namespace (whose `keysArrayName` is the
computed index key `__<namespace>-keys-array`), setting a logical key equal
to that index key throws the Reserved Key error.  The throw is the first
statement of `setItemSync`, before any write, so the error result carries
the call's inputs unchanged: the persisted key index, every persisted entry
and both cache mirrors are exactly as before the call. -/
theorem reserved_key_set_rejected (st : LocalStorageInterface) (m : Medium)
    (v : JSVal) (hw : WellNamed st) :
    setItemSync st m ("__" ++ st.storageName ++ "-keys-array") v =
      .error (.reservedKey ("__" ++ st.storageName ++ "-keys-array")) :=
  setItemSync_reserved st m v hw.symm

/-- Witness for C4 at a concrete instance and medium. -/
theorem reserved_key_set_rejected_witness :
    WellNamed demoNC ∧
      setItemSync demoNC demoM1 ("__" ++ demoNC.storageName ++ "-keys-array")
          (.num 0) =
        .error (.reservedKey ("__" ++ demoNC.storageName ++ "-keys-array")) :=
  ⟨rfl, reserved_key_set_rejected demoNC demoM1 (.num 0) rfl⟩

/-! ### Claim C8 -/

/-- Claim C8: if the namespace's key index record is absent from the medium
(initialization never ran successfully for that name), every operation that
reads the key index from the medium fails with the index-not-found error
rather than proceeding or returning a default: `getKeysArray` itself and,
with caching disabled, `set` (of a non-reserved key), `remove`, `clear`,
`size` and `keyAt`. -/
theorem uninitialized_read_fails (st : LocalStorageInterface)
    (m : Medium) (k : String) (v : JSVal) (i : Int)
    (hm : m.getItem st.keysArrayName = none) (hc : st.useCache = false)
    (hk : k ≠ st.keysArrayName) :
    getKeysArray st m = .error (.indexNotFound st.keysArrayName) ∧
    setItemSync st m k v = .error (.indexNotFound st.keysArrayName) ∧
    removeItemSync st m k = .error (.indexNotFound st.keysArrayName) ∧
    clearSync st m = .error (.indexNotFound st.keysArrayName) ∧
    sizeSync st m = .error (.indexNotFound st.keysArrayName) ∧
    keySync st m i = .error (.indexNotFound st.keysArrayName) := by
  have hcur := currentKeys_notFound hc hm
  exact ⟨by simp [getKeysArray, hm], setItemSync_err v hk hcur,
    removeItemSync_err k hcur, clearSync_err hcur, sizeSync_err hcur,
    keySync_err i hcur⟩

/-- Witness for C8: the empty medium holds no index for `"ns"`. -/
theorem uninitialized_read_fails_witness :
    (Medium.empty.getItem demoNC.keysArrayName = none ∧
      demoNC.useCache = false ∧ "a" ≠ demoNC.keysArrayName) ∧
    sizeSync demoNC Medium.empty =
      .error (.indexNotFound demoNC.keysArrayName) :=
  ⟨⟨rfl, rfl, by decide⟩,
    (uninitialized_read_fails demoNC Medium.empty "a" .null 0 rfl rfl
      (by decide)).2.2.2.2.1⟩

/-! ### Claim C10 -/

/-- Claim C10: after `set k undefined` on an initialized namespace where `k`
is not yet present, the key is appended to the key index — `size` counts it
and `keyAt` returns it — and a physical entry record (the wrapped text of
`undefined`, i.e. the empty-object text) exists in the medium, yet `get k`
returns `undefined`: at the `get` interface the key is indistinguishable
from a never-set key, while `size` and `keyAt` distinguish them. -/
theorem set_undefined_indexed (st : LocalStorageInterface) (m : Medium)
    (k : String) (ks : List String) (hw : WellNamed st)
    (hk : k ≠ st.keysArrayName) (hcur : currentKeys st m = .ok (ks, st))
    (hmem : k ∉ ks) :
    ∃ st' m', setItemSync st m k .undefined = .ok (st', m') ∧
      sizeSync st' m' = .ok (ks.length + 1, st') ∧
      keySync st' m' (ks.length : Int) = .ok (some k, st') ∧
      m'.getItem (st.keyName k) = some (.wrapped .undefined) ∧
      (getItemSync st' m' k).1 = .undefined := by
  have hset := setItemSync_ok_new .undefined hk hcur hmem
  have hkan := keyName_ne_keysArrayName hw k
  set m2 : Medium := (m.setItem st.keysArrayName (.keysArr (ks ++ [k]))).setItem
    (st.keyName k) (.wrapped .undefined) with hm2
  have hget : m2.getItem (st.keyName k) = some (.wrapped .undefined) :=
    Medium.getItem_setItem_self _ _ _
  have hidx : m2.getItem st.keysArrayName = some (.keysArr (ks ++ [k])) := by
    rw [hm2, Medium.getItem_setItem_ne _ (Ne.symm hkan), Medium.getItem_setItem_self]
  have hlast : listGetJS (ks ++ [k]) (ks.length : Int) = some k := by
    simp [listGetJS, List.getElem?_concat_length]
  by_cases hc : st.useCache = true
  · rw [if_pos hc] at hset
    set st2 : LocalStorageInterface := { st with
      keysArrayCache := ks ++ [k],
      keyValueCache := fun p => if p = k then some .undefined else st.keyValueCache p }
      with hst2
    have hc2 : st2.useCache = true := by rw [hst2]; exact hc
    have hcur2 := currentKeys_cache hc2 m2
    have hkc2 : st2.keysArrayCache = ks ++ [k] := by rw [hst2]
    rw [hkc2] at hcur2
    refine ⟨st2, m2, hset, ?_, ?_, hget, ?_⟩
    · rw [sizeSync_ok hcur2]
      simp
    · rw [keySync_ok _ hcur2, hlast]
    · have hv : st2.keyValueCache k = some .undefined := by rw [hst2]; simp
      rw [getItemSync_hit hc2 hv]
  · simp only [Bool.not_eq_true] at hc
    rw [if_neg (by simp [hc])] at hset
    refine ⟨st, m2, hset, ?_, ?_, hget, ?_⟩
    · rw [sizeSync_ok (currentKeys_nocache hc hidx)]
      simp
    · rw [keySync_ok _ (currentKeys_nocache hc hidx), hlast]
    · rw [getItemSync_miss_found (Or.inl hc) hget]
      rfl

/-- Witness for C10 on an initialized empty namespace. -/
theorem set_undefined_indexed_witness :
    (WellNamed demoNC ∧ "a" ≠ demoNC.keysArrayName ∧
      currentKeys demoNC demoM0 = .ok ([], demoNC) ∧ "a" ∉ ([] : List String)) ∧
    (∃ st' m', setItemSync demoNC demoM0 "a" .undefined = .ok (st', m') ∧
      sizeSync st' m' = .ok (0 + 1, st') ∧
      keySync st' m' ((0 : Nat) : Int) = .ok (some "a", st') ∧
      m'.getItem (demoNC.keyName "a") = some (.wrapped .undefined) ∧
      (getItemSync st' m' "a").1 = .undefined) :=
  ⟨⟨rfl, by decide, rfl, by simp⟩,
    by
      have h := set_undefined_indexed demoNC demoM0 "a" [] rfl (by decide)
        rfl (by simp)
      simpa using h⟩

/-! ### Claim C7 -/

/-- Removing, re-writing the same index record and removing again is the
identity on the medium once the entry key differs from the index key. -/
theorem remove_again_medium (m0 : Medium) (kan ek : String) (hne : ek ≠ kan)
    (l : List String) :
    ((((m0.setItem kan (.keysArr l)).removeItem ek).setItem kan
        (.keysArr l)).removeItem ek) =
      (m0.setItem kan (.keysArr l)).removeItem ek := by
  funext p
  by_cases hpe : p = ek
  · subst hpe
    simp [Medium.removeItem]
  · by_cases hpk : p = kan
    · subst hpk
      simp [Medium.removeItem, Medium.setItem, hpe]
    · simp [Medium.removeItem, Medium.setItem, hpe, hpk]

/-- Filtering a key out twice equals filtering it once. -/
theorem filter_ne_idem (l : List String) (k : String) :
    (l.filter (fun s => s != k)).filter (fun s => s != k) =
      l.filter (fun s => s != k) := by
  apply List.filter_eq_self.mpr
  intro a ha
  exact (List.mem_filter.mp ha).2

/-- A list with `k` absent is unchanged by filtering `k` out. -/
theorem filter_ne_of_not_mem {l : List String} {k : String} (h : k ∉ l) :
    l.filter (fun s => s != k) = l := by
  apply List.filter_eq_self.mpr
  intro a ha
  simp only [bne_iff_ne, ne_eq]
  intro he
  exact h (he ▸ ha)

/-- Claim C7: on an initialized namespace, `remove` is idempotent and total
over key presence: it never throws; `remove` followed by `get` on the key
returns `undefined`; `remove` of a key that is not present leaves the key
index content unchanged as a sequence; and removing the key a second time
returns exactly the state produced by removing it once. -/
theorem remove_idempotent (st : LocalStorageInterface) (m : Medium)
    (k : String) (ks : List String) (hw : WellNamed st)
    (hcur : currentKeys st m = .ok (ks, st)) :
    ∃ st' m', removeItemSync st m k = .ok (st', m') ∧
      (getItemSync st' m' k).1 = .undefined ∧
      (k ∉ ks → currentKeys st' m' = .ok (ks, st')) ∧
      removeItemSync st' m' k = .ok (st', m') := by
  have hkan := keyName_ne_keysArrayName hw k
  have hrem := removeItemSync_ok k hcur
  set fks : List String := ks.filter (fun savedKey => savedKey != k) with hfks
  set m2 : Medium := (m.setItem st.keysArrayName (.keysArr fks)).removeItem
    (st.keyName k) with hm2
  have hgone : m2.getItem (st.keyName k) = none :=
    Medium.getItem_removeItem_self _ _
  have hidx : m2.getItem st.keysArrayName = some (.keysArr fks) := by
    rw [hm2, Medium.getItem_removeItem_ne _ (Ne.symm hkan), Medium.getItem_setItem_self]
  have hmagain : (m2.setItem st.keysArrayName (.keysArr fks)).removeItem
      (st.keyName k) = m2 := by
    rw [hm2]
    exact remove_again_medium m st.keysArrayName (st.keyName k) hkan fks
  have hffk : fks.filter (fun savedKey => savedKey != k) = fks := by
    rw [hfks]
    exact filter_ne_idem ks k
  by_cases hc : st.useCache = true
  · rw [if_pos hc] at hrem
    set st2 : LocalStorageInterface := { st with
      keysArrayCache := fks,
      keyValueCache := fun p => if p = k then none else st.keyValueCache p }
      with hst2
    have hc2 : st2.useCache = true := by rw [hst2]; exact hc
    have hkc2 : st2.keysArrayCache = fks := by rw [hst2]
    have hcur2 := currentKeys_cache hc2 m2
    rw [hkc2] at hcur2
    refine ⟨st2, m2, hrem, ?_, ?_, ?_⟩
    · have hv : st2.keyValueCache k = none := by rw [hst2]; simp
      rw [getItemSync_miss_none (Or.inr hv) hgone]
    · intro hnm
      rw [currentKeys_cache hc2, hkc2, hfks, filter_ne_of_not_mem hnm]
    · have hn2 : st2.keysArrayName = st.keysArrayName := by rw [hst2]
      have hsn2 : st2.keyName k = st.keyName k := by
        rw [hst2]
        simp [LocalStorageInterface.keyName]
      rw [removeItemSync_ok k hcur2, if_pos hc2, hn2, hsn2, hffk, hmagain]
      refine congrArg Except.ok (Prod.ext ?_ rfl)
      refine LocalStorageInterface.ext rfl rfl rfl ?_ ?_
      · rw [hkc2]
      · funext p
        rw [hst2]
        by_cases hp : p = k <;> simp [hp]
  · simp only [Bool.not_eq_true] at hc
    rw [if_neg (by simp [hc])] at hrem
    refine ⟨st, m2, hrem, ?_, ?_, ?_⟩
    · rw [getItemSync_miss_none (Or.inl hc) hgone]
    · intro hnm
      rw [currentKeys_nocache hc hidx, hfks, filter_ne_of_not_mem hnm]
    · rw [removeItemSync_ok k (currentKeys_nocache hc hidx), if_neg (by simp [hc]),
        hffk, hmagain]

/-- Witness for C7 on the demo namespace holding key `"a"`: removing the
absent key `"b"`. -/
theorem remove_idempotent_witness :
    (WellNamed demoNC ∧ currentKeys demoNC demoM1 = .ok (["a"], demoNC)) ∧
    (∃ st' m', removeItemSync demoNC demoM1 "b" = .ok (st', m') ∧
      (getItemSync st' m' "b").1 = .undefined ∧
      ("b" ∉ ["a"] → currentKeys st' m' = .ok (["a"], st')) ∧
      removeItemSync st' m' "b" = .ok (st', m')) :=
  ⟨⟨rfl, rfl⟩, remove_idempotent demoNC demoM1 "b" ["a"] rfl rfl⟩

/-! ### Claim C5 -/

/-- Claim C5: after `clear()` on an initialized namespace, `size()` is `0`,
and for every logical key that was listed in the pre-clear index — and
likewise every key whose entry was already absent, which covers keys that
were set and later removed — the physical entry record is absent from the
medium and `get` returns `undefined`. -/
theorem clear_resets_namespace (st : LocalStorageInterface) (m : Medium)
    (ks : List String) (hw : WellNamed st)
    (hcur : currentKeys st m = .ok (ks, st)) :
    ∃ st' m', clearSync st m = .ok (st', m') ∧
      sizeSync st' m' = .ok (0, st') ∧
      ∀ k, (k ∈ ks ∨ m.getItem (st.keyName k) = none) →
        m'.getItem (st.keyName k) = none ∧ (getItemSync st' m' k).1 = .undefined := by
  have hclear := clearSync_ok hcur
  set m2 : Medium := (ks.foldl (fun acc key => acc.removeItem (st.keyName key))
      m).setItem st.keysArrayName (.keysArr []) with hm2
  have hent : ∀ k, (k ∈ ks ∨ m.getItem (st.keyName k) = none) →
      m2.getItem (st.keyName k) = none := by
    intro k hk
    rw [hm2, Medium.getItem_setItem_ne _ (keyName_ne_keysArrayName hw k),
      foldl_removeItem_getItem]
    rcases hk with hk | hk
    · rw [if_pos ⟨k, hk, rfl⟩]
    · split <;> simp [hk]
  have hidx : m2.getItem st.keysArrayName = some (.keysArr []) :=
    Medium.getItem_setItem_self _ _ _
  by_cases hc : st.useCache = true
  · rw [if_pos hc] at hclear
    set st2 : LocalStorageInterface :=
      { st with keyValueCache := fun _ => none, keysArrayCache := [] } with hst2
    have hc2 : st2.useCache = true := by rw [hst2]; exact hc
    have hcur2 := currentKeys_cache hc2 m2
    have hkc2 : st2.keysArrayCache = [] := by rw [hst2]
    rw [hkc2] at hcur2
    refine ⟨st2, m2, hclear, ?_, ?_⟩
    · rw [sizeSync_ok hcur2]
      rfl
    · intro k hk
      refine ⟨hent k hk, ?_⟩
      have hv : st2.keyValueCache k = none := by rw [hst2]
      rw [getItemSync_miss_none (Or.inr hv) (hent k hk)]
  · simp only [Bool.not_eq_true] at hc
    rw [if_neg (by simp [hc])] at hclear
    refine ⟨st, m2, hclear, ?_, ?_⟩
    · rw [sizeSync_ok (currentKeys_nocache hc hidx)]
      rfl
    · intro k hk
      exact ⟨hent k hk,
        by rw [getItemSync_miss_none (Or.inl hc) (hent k hk)]⟩

/-- Witness for C5 on the demo namespace holding key `"a"` with value 7. -/
theorem clear_resets_namespace_witness :
    (WellNamed demoNC ∧ currentKeys demoNC demoM1 = .ok (["a"], demoNC)) ∧
    (∃ st' m', clearSync demoNC demoM1 = .ok (st', m') ∧
      sizeSync st' m' = .ok (0, st') ∧
      ∀ k, (k ∈ ["a"] ∨ demoM1.getItem (demoNC.keyName k) = none) →
        m'.getItem (demoNC.keyName k) = none ∧
          (getItemSync st' m' k).1 = .undefined) :=
  ⟨⟨rfl, rfl⟩, clear_resets_namespace demoNC demoM1 ["a"] rfl rfl⟩

/-! ### Inversion of successful operations -/

theorem getItemSync_shape (st : LocalStorageInterface) (m : Medium)
    (k : String) :
    (getItemSync st m k).2 = st ∨
    (st.useCache = true ∧ ∃ s, m.getItem (st.keyName k) = some s ∧
      (getItemSync st m k).2 = { st with keyValueCache :=
        fun p => if p = k then (some (decodeEntry s)) else st.keyValueCache p }) := by
  by_cases hg : (st.useCache && (st.keyValueCache k).isSome) = true
  · left
    simp [getItemSync, hg]
  · cases hm : m.getItem (st.keyName k) with
    | none =>
      left
      simp [getItemSync, hg, hm]
    | some s =>
      by_cases hc : st.useCache = true
      · right
        have hv : (st.keyValueCache k).isSome = false := by
          rw [hc] at hg
          simpa using hg
        exact ⟨hc, s, rfl, by simp [getItemSync, hg, hm, hc, hv]⟩
      · left
        simp [getItemSync, hg, hm, hc]

theorem setItemSync_ok_shape {st st' : LocalStorageInterface} {m m' : Medium}
    {k : String} {v : JSVal}
    (h : setItemSync st m k v = .ok (st', m')) :
    ∃ ks, k ≠ st.keysArrayName ∧ currentKeys st m = .ok (ks, st) ∧
      ((k ∉ ks ∧
        st' = (if st.useCache then
          { st with
            keysArrayCache := ks ++ [k],
            keyValueCache := fun p => if p = k then some v else st.keyValueCache p }
          else st) ∧
        m' = (m.setItem st.keysArrayName (.keysArr (ks ++ [k]))).setItem
          (st.keyName k) (.wrapped v)) ∨
       (k ∈ ks ∧
        st' = (if st.useCache then
          { st with
            keyValueCache := fun p => if p = k then some v else st.keyValueCache p }
          else st) ∧
        m' = m.setItem (st.keyName k) (.wrapped v))) := by
  by_cases hk : k = st.keysArrayName
  · rw [setItemSync_reserved st m v hk] at h
    cases h
  · cases hcv : currentKeys st m with
    | error e =>
      rw [setItemSync_err v hk hcv] at h
      cases h
    | ok r =>
      obtain ⟨ks, st0⟩ := r
      obtain ⟨h0, -, -⟩ := currentKeys_self hcv
      subst h0
      refine ⟨ks, hk, rfl, ?_⟩
      by_cases hmem : k ∈ ks
      · rw [setItemSync_ok_old v hk hcv hmem] at h
        simp only [Except.ok.injEq, Prod.mk.injEq] at h
        exact Or.inr ⟨hmem, h.1.symm, h.2.symm⟩
      · rw [setItemSync_ok_new v hk hcv hmem] at h
        simp only [Except.ok.injEq, Prod.mk.injEq] at h
        exact Or.inl ⟨hmem, h.1.symm, h.2.symm⟩

theorem removeItemSync_ok_shape {st st' : LocalStorageInterface}
    {m m' : Medium} {k : String}
    (h : removeItemSync st m k = .ok (st', m')) :
    ∃ ks, currentKeys st m = .ok (ks, st) ∧
      st' = (if st.useCache then
        { st with
          keysArrayCache := ks.filter (fun savedKey => savedKey != k),
          keyValueCache := fun p => if p = k then none else st.keyValueCache p }
        else st) ∧
      m' = (m.setItem st.keysArrayName
        (.keysArr (ks.filter (fun savedKey => savedKey != k)))).removeItem
          (st.keyName k) := by
  cases hcv : currentKeys st m with
  | error e =>
    rw [removeItemSync_err k hcv] at h
    cases h
  | ok r =>
    obtain ⟨ks, st0⟩ := r
    obtain ⟨h0, -, -⟩ := currentKeys_self hcv
    subst h0
    rw [removeItemSync_ok k hcv] at h
    simp only [Except.ok.injEq, Prod.mk.injEq] at h
    exact ⟨ks, rfl, h.1.symm, h.2.symm⟩

theorem clearSync_ok_shape {st st' : LocalStorageInterface} {m m' : Medium}
    (h : clearSync st m = .ok (st', m')) :
    ∃ ks, currentKeys st m = .ok (ks, st) ∧
      st' = (if st.useCache then
        { st with keyValueCache := fun _ => none, keysArrayCache := [] }
        else st) ∧
      m' = (ks.foldl (fun acc key => acc.removeItem (st.keyName key)) m).setItem
        st.keysArrayName (.keysArr []) := by
  cases hcv : currentKeys st m with
  | error e =>
    rw [clearSync_err hcv] at h
    cases h
  | ok r =>
    obtain ⟨ks, st0⟩ := r
    obtain ⟨h0, -, -⟩ := currentKeys_self hcv
    subst h0
    rw [clearSync_ok hcv] at h
    simp only [Except.ok.injEq, Prod.mk.injEq] at h
    exact ⟨ks, rfl, h.1.symm, h.2.symm⟩

/-- Any successful operation leaves the namespace identity and the caching
mode of the instance unchanged, and `size`/`keyAt`/`get` leave the medium
unchanged. -/
theorem apply_preserves_config {op : Op} {st st' : LocalStorageInterface}
    {m m' : Medium} (h : op.apply st m = .ok (st', m')) :
    st'.storageName = st.storageName ∧ st'.keysArrayName = st.keysArrayName ∧
      st'.useCache = st.useCache := by
  cases op with
  | get k =>
    simp only [Op.apply, Except.ok.injEq, Prod.mk.injEq] at h
    obtain ⟨h1, -⟩ := h
    rcases getItemSync_shape st m k with hs | ⟨-, s, -, hs⟩ <;>
      rw [hs] at h1 <;> rw [← h1] <;> simp
  | set k v =>
    obtain ⟨ks, -, -, hc | hc⟩ := setItemSync_ok_shape h <;>
      obtain ⟨-, rfl, -⟩ := hc <;> split <;> simp
  | remove k =>
    obtain ⟨ks, -, rfl, -⟩ := removeItemSync_ok_shape h
    split <;> simp
  | clear =>
    obtain ⟨ks, -, rfl, -⟩ := clearSync_ok_shape h
    split <;> simp
  | size =>
    simp only [Op.apply] at h
    cases hcv : currentKeys st m with
    | error e =>
      rw [sizeSync_err hcv] at h
      simp [Except.map] at h
    | ok r =>
      obtain ⟨ks, st0⟩ := r
      obtain ⟨h0, -, -⟩ := currentKeys_self hcv
      subst h0
      rw [sizeSync_ok hcv] at h
      simp only [Except.map, Except.ok.injEq, Prod.mk.injEq] at h
      rw [← h.1]
      exact ⟨rfl, rfl, rfl⟩
  | keyAt i =>
    simp only [Op.apply] at h
    cases hcv : currentKeys st m with
    | error e =>
      rw [keySync_err i hcv] at h
      simp [Except.map] at h
    | ok r =>
      obtain ⟨ks, st0⟩ := r
      obtain ⟨h0, -, -⟩ := currentKeys_self hcv
      subst h0
      rw [keySync_ok i hcv] at h
      simp only [Except.map, Except.ok.injEq, Prod.mk.injEq] at h
      rw [← h.1]
      exact ⟨rfl, rfl, rfl⟩

/-- A successful operation writes only to physical keys owned by its own
namespace: its index key and its entry keys.  Every other physical key of
the medium is unchanged. -/
theorem apply_frame {op : Op} {st st' : LocalStorageInterface}
    {m m' : Medium} (h : op.apply st m = .ok (st', m')) (p : String)
    (hp1 : p ≠ st.keysArrayName) (hp2 : ∀ q, p ≠ st.keyName q) :
    m'.getItem p = m.getItem p := by
  cases op with
  | get k =>
    simp only [Op.apply, Except.ok.injEq, Prod.mk.injEq] at h
    rw [← h.2]
  | set k v =>
    obtain ⟨ks, -, -, hc | hc⟩ := setItemSync_ok_shape h
    · obtain ⟨-, -, rfl⟩ := hc
      rw [Medium.getItem_setItem_ne _ (hp2 k), Medium.getItem_setItem_ne _ hp1]
    · obtain ⟨-, -, rfl⟩ := hc
      rw [Medium.getItem_setItem_ne _ (hp2 k)]
  | remove k =>
    obtain ⟨ks, -, -, rfl⟩ := removeItemSync_ok_shape h
    rw [Medium.getItem_removeItem_ne _ (hp2 k), Medium.getItem_setItem_ne _ hp1]
  | clear =>
    obtain ⟨ks, -, -, rfl⟩ := clearSync_ok_shape h
    rw [Medium.getItem_setItem_ne _ hp1, foldl_removeItem_getItem]
    rw [if_neg]
    intro hex
    obtain ⟨q, -, hq⟩ := hex
    exact hp2 q hq.symm
  | size =>
    simp only [Op.apply] at h
    cases hcv : currentKeys st m with
    | error e =>
      rw [sizeSync_err hcv] at h
      simp [Except.map] at h
    | ok r =>
      obtain ⟨ks, st0⟩ := r
      obtain ⟨h0, -, -⟩ := currentKeys_self hcv
      subst h0
      rw [sizeSync_ok hcv] at h
      simp only [Except.map, Except.ok.injEq, Prod.mk.injEq] at h
      rw [← h.2]
  | keyAt i =>
    simp only [Op.apply] at h
    cases hcv : currentKeys st m with
    | error e =>
      rw [keySync_err i hcv] at h
      simp [Except.map] at h
    | ok r =>
      obtain ⟨ks, st0⟩ := r
      obtain ⟨h0, -, -⟩ := currentKeys_self hcv
      subst h0
      rw [keySync_ok i hcv] at h
      simp only [Except.map, Except.ok.injEq, Prod.mk.injEq] at h
      rw [← h.2]

/-! ### Claim C3 -/

/-- Claim C3 as frozen is false on the code: it quantifies over every pair
of namespaces with merely non-equal name strings.  The namespaces `"x"` and
`"x-y"` have distinct names, yet the physical key spaces overlap:
`keyName "x" "y-k" = "x-y-k" = keyName "x-y" "k"`.  Concretely, after
initializing both namespaces and setting key `"y-k"` on `"x"` and key `"k"`
on `"x-y"`, `clear()` on `"x"` removes the physical entry `"x-y-k"`
belonging to `"x-y"`: that entry is `{value: 2}` before the clear and absent
after it, so `clear()` on A removed a physical key of B. -/
theorem namespace_isolation_cex :
    ("x" : String) ≠ "x-y" ∧
    initSync newInterface { name := some "x", useCache := some false }
        Medium.empty = (none, cexStA, cexMA) ∧
    setItemSync cexStA cexMA "y-k" (.num 1) = .ok (cexStA, cexMB) ∧
    initSync newInterface { name := some "x-y", useCache := some false }
        cexMB = (none, cexStB, cexMC) ∧
    setItemSync cexStB cexMC "k" (.num 2) = .ok (cexStB, cexMD) ∧
    cexStB.keyName "k" = "x-y-k" ∧
    cexMD.getItem "x-y-k" = some (.wrapped (.num 2)) ∧
    clearSync cexStA cexMD = .ok (cexStA, cexMF) ∧
    cexMF.getItem "x-y-k" = none :=
  ⟨by decide, rfl, rfl, rfl, rfl, rfl, rfl, rfl, rfl⟩

/-- Claim C3 (amended): restricted to namespaces whose physical-key spaces
cannot collide — names that are non-equal, contain no hyphen and do not
start with `__` — no successful operation on namespace A is observable in
namespace B: every entry key and the index record of B are byte-for-byte
unchanged in the medium, and `size()` on B returns the same result before
and after the operation on A. -/
theorem namespace_isolation_amended
    (stA stB : LocalStorageInterface) (m : Medium) (op : Op)
    (stA' : LocalStorageInterface) (m' : Medium)
    (haf : hyphenFree stA.storageName = true)
    (hbf : hyphenFree stB.storageName = true)
    (hau : startsWithUU stA.storageName = false)
    (hbu : startsWithUU stB.storageName = false)
    (hne : stA.storageName ≠ stB.storageName)
    (hwa : WellNamed stA) (hwb : WellNamed stB)
    (happ : op.apply stA m = .ok (stA', m')) :
    (∀ k, m'.getItem (stB.keyName k) = m.getItem (stB.keyName k)) ∧
    m'.getItem stB.keysArrayName = m.getItem stB.keysArrayName ∧
    sizeSync stB m' = sizeSync stB m := by
  have hent : ∀ k q, stB.keyName k ≠ stA.keyName q := by
    intro k q
    simp only [LocalStorageInterface.keyName]
    exact keyName_disjoint hbf haf (Ne.symm hne) k q
  have hentB_ne_idxA : ∀ k, stB.keyName k ≠ stA.keysArrayName := by
    intro k
    rw [hwa]
    simp only [LocalStorageInterface.keyName]
    exact keyName_ne_other_indexKey hbu k stA.storageName
  have hidxB_ne_entA : ∀ q, stB.keysArrayName ≠ stA.keyName q := by
    intro q
    rw [hwb]
    simp only [LocalStorageInterface.keyName]
    intro hcontra
    exact keyName_ne_other_indexKey hau q stB.storageName hcontra.symm
  have hidx_ne : stB.keysArrayName ≠ stA.keysArrayName := by
    rw [hwa, hwb]
    intro hcontra
    exact hne (indexKey_inj hcontra).symm
  have h1 : ∀ k, m'.getItem (stB.keyName k) = m.getItem (stB.keyName k) :=
    fun k => apply_frame happ _ (hentB_ne_idxA k) (fun q => hent k q)
  have h2 : m'.getItem stB.keysArrayName = m.getItem stB.keysArrayName :=
    apply_frame happ _ hidx_ne hidxB_ne_entA
  have hg : getKeysArray stB m' = getKeysArray stB m := by
    unfold getKeysArray
    rw [h2]
  refine ⟨h1, h2, ?_⟩
  simp [sizeSync, currentKeys, hg]

/-- Witness for the amended C3: `clear()` on namespace `"ns"` does not
touch namespace `"other"`. -/
theorem namespace_isolation_amended_witness :
    (hyphenFree demoNC.storageName = true ∧
      hyphenFree demoB.storageName = true ∧
      startsWithUU demoNC.storageName = false ∧
      startsWithUU demoB.storageName = false ∧
      demoNC.storageName ≠ demoB.storageName ∧
      WellNamed demoNC ∧ WellNamed demoB ∧
      Op.apply .clear demoNC demoM1 = .ok (demoNC, demoM2)) ∧
    ((∀ k, demoM2.getItem (demoB.keyName k) = demoM1.getItem (demoB.keyName k)) ∧
      demoM2.getItem demoB.keysArrayName = demoM1.getItem demoB.keysArrayName ∧
      sizeSync demoB demoM2 = sizeSync demoB demoM1) :=
  ⟨⟨by decide, by decide, by decide, by decide, by decide, rfl, rfl, rfl⟩,
    namespace_isolation_amended demoNC demoB demoM1 .clear demoNC demoM2
      (by decide) (by decide) (by decide) (by decide) (by decide) rfl rfl rfl⟩

/-! ### Claim C2: cache coherence -/

theorem keyName_inj_ne {st : LocalStorageInterface} {p k : String}
    (h : p ≠ k) : st.keyName p ≠ st.keyName k :=
  fun he => h (keyName_inj he)

theorem cacheInv_get {st : LocalStorageInterface} {m : Medium}
    (hw : WellNamed st) (hinv : CacheInv st m) (k : String) :
    CacheInv (getItemSync st m k).2 m := by
  rcases getItemSync_shape st m k with hs | ⟨hc, s, hm, hs⟩
  · rw [hs]
    exact hinv
  · rw [hs]
    intro _
    obtain ⟨hidx, hval⟩ := hinv hc
    refine ⟨by simpa using hidx, ?_⟩
    intro p v hp
    simp only at hp
    by_cases hpk : p = k
    · subst hpk
      rw [if_pos rfl] at hp
      refine ⟨s, by simpa [LocalStorageInterface.keyName] using hm, ?_⟩
      injection hp
    · rw [if_neg hpk] at hp
      simpa [LocalStorageInterface.keyName] using hval p v hp

theorem cacheInv_set {st st' : LocalStorageInterface} {m m' : Medium}
    {k : String} {v : JSVal} (hw : WellNamed st) (hinv : CacheInv st m)
    (h : setItemSync st m k v = .ok (st', m')) : CacheInv st' m' := by
  obtain ⟨ks, hk, hcur, hc | hc⟩ := setItemSync_ok_shape h <;>
    obtain ⟨hmem, hst, hm⟩ := hc
  · -- new key appended to the index
    by_cases huc : st.useCache = true
    · obtain ⟨-, hks, -⟩ := currentKeys_self hcur
      have hks2 := hks huc
      subst hks2
      rw [hst, if_pos huc, hm]
      intro _
      constructor
      · rw [Medium.getItem_setItem_ne _
          (Ne.symm (keyName_ne_keysArrayName hw k))]
        simp
      · intro p w hp
        simp only at hp
        by_cases hpk : p = k
        · subst hpk
          rw [if_pos rfl] at hp
          refine ⟨.wrapped v, ?_, ?_⟩
          · simpa [LocalStorageInterface.keyName] using
              Medium.getItem_setItem_self _ (st.keyName k) (.wrapped v)
          · injection hp
        · rw [if_neg hpk] at hp
          obtain ⟨s, hs1, hs2⟩ := (hinv huc).2 p w hp
          refine ⟨s, ?_, hs2⟩
          have e1 : ({ st with
              keysArrayCache := st.keysArrayCache ++ [k],
              keyValueCache := fun p => if p = k then some v
                else st.keyValueCache p } :
                LocalStorageInterface).keyName p = st.keyName p := rfl
          rw [e1, Medium.getItem_setItem_ne _ (keyName_inj_ne hpk),
            Medium.getItem_setItem_ne _ (keyName_ne_keysArrayName hw p)]
          exact hs1
    · rw [hst, if_neg (by simp [huc])]
      intro hcontra
      exact absurd hcontra (by simp [huc])
  · -- key already present: index untouched
    by_cases huc : st.useCache = true
    · obtain ⟨-, hks, -⟩ := currentKeys_self hcur
      have hks2 := hks huc
      subst hks2
      rw [hst, if_pos huc, hm]
      intro _
      constructor
      · rw [Medium.getItem_setItem_ne _
          (Ne.symm (keyName_ne_keysArrayName hw k))]
        simpa using (hinv huc).1
      · intro p w hp
        simp only at hp
        by_cases hpk : p = k
        · subst hpk
          rw [if_pos rfl] at hp
          refine ⟨.wrapped v, ?_, ?_⟩
          · simpa [LocalStorageInterface.keyName] using
              Medium.getItem_setItem_self _ (st.keyName k) (.wrapped v)
          · injection hp
        · rw [if_neg hpk] at hp
          obtain ⟨s, hs1, hs2⟩ := (hinv huc).2 p w hp
          refine ⟨s, ?_, hs2⟩
          have e1 : ({ st with
              keyValueCache := fun p => if p = k then some v
                else st.keyValueCache p } :
                LocalStorageInterface).keyName p = st.keyName p := rfl
          rw [e1, Medium.getItem_setItem_ne _ (keyName_inj_ne hpk)]
          exact hs1
    · rw [hst, if_neg (by simp [huc])]
      intro hcontra
      exact absurd hcontra (by simp [huc])

theorem cacheInv_remove {st st' : LocalStorageInterface} {m m' : Medium}
    {k : String} (hw : WellNamed st) (hinv : CacheInv st m)
    (h : removeItemSync st m k = .ok (st', m')) : CacheInv st' m' := by
  obtain ⟨ks, hcur, hst, hm⟩ := removeItemSync_ok_shape h
  by_cases huc : st.useCache = true
  · obtain ⟨-, hks, -⟩ := currentKeys_self hcur
    have hks2 := hks huc
    subst hks2
    rw [hst, if_pos huc, hm]
    intro _
    constructor
    · rw [Medium.getItem_removeItem_ne _
        (Ne.symm (keyName_ne_keysArrayName hw k))]
      simp
    · intro p w hp
      simp only at hp
      by_cases hpk : p = k
      · subst hpk
        rw [if_pos rfl] at hp
        cases hp
      · rw [if_neg hpk] at hp
        obtain ⟨s, hs1, hs2⟩ := (hinv huc).2 p w hp
        refine ⟨s, ?_, hs2⟩
        have e1 : ({ st with
            keysArrayCache := st.keysArrayCache.filter
              (fun savedKey => savedKey != k),
            keyValueCache := fun p => if p = k then none
              else st.keyValueCache p } :
              LocalStorageInterface).keyName p = st.keyName p := rfl
        rw [e1, Medium.getItem_removeItem_ne _ (keyName_inj_ne hpk),
          Medium.getItem_setItem_ne _ (keyName_ne_keysArrayName hw p)]
        exact hs1
  · rw [hst, if_neg (by simp [huc])]
    intro hcontra
    exact absurd hcontra (by simp [huc])

theorem cacheInv_clear {st st' : LocalStorageInterface} {m m' : Medium}
    (hw : WellNamed st) (hinv : CacheInv st m)
    (h : clearSync st m = .ok (st', m')) : CacheInv st' m' := by
  obtain ⟨ks, hcur, hst, hm⟩ := clearSync_ok_shape h
  by_cases huc : st.useCache = true
  · rw [hst, if_pos huc, hm]
    intro _
    refine ⟨by simp, ?_⟩
    intro p w hp
    cases hp
  · rw [hst, if_neg (by simp [huc])]
    intro hcontra
    exact absurd hcontra (by simp [huc])

/-- Claim C2: with caching enabled, immediately after any completed
operation the in-memory mirror agrees with the persisted state of the
namespace: a successful `initialize` on a freshly constructed instance
establishes `CacheInv` (the cached key index equals the persisted key index
and every value present in the value cache has a persisted entry whose
decoded value is the cached value), and every successful operation — `get`,
`set`, `remove`, `clear`, `size`, `keyAt` — preserves `CacheInv`.  With
caching disabled the invariant is vacuously maintained. -/
theorem cache_mirror_agrees :
    (∀ setup m st' m', initSync newInterface setup m = (none, st', m') →
        CacheInv st' m') ∧
    (∀ (op : Op) st m st' m', WellNamed st → CacheInv st m →
        op.apply st m = .ok (st', m') → CacheInv st' m') := by
  constructor
  · intro setup m st' m' h
    simp only [initSync, newInterface] at h
    cases hm : m.getItem ("__" ++ setup.name.getD defaultStorageName ++
        "-keys-array") with
    | none =>
      rw [hm] at h
      simp only [Prod.mk.injEq] at h
      rw [← h.2.1, ← h.2.2]
      intro _
      exact ⟨by simp, by intro p v hp; cases hp⟩
    | some s =>
      cases s with
      | keysArr ks =>
        rw [hm] at h
        simp only [Prod.mk.injEq] at h
        rw [← h.2.1, ← h.2.2]
        by_cases huc : setup.useCache.getD defaultUseCache = true
        · rw [if_pos huc]
          intro _
          exact ⟨by simpa using hm, by intro p v hp; cases hp⟩
        · rw [if_neg huc]
          intro hcontra
          exact absurd hcontra (by simpa using huc)
      | wrapped v =>
        rw [hm] at h
        by_cases huc : setup.useCache.getD defaultUseCache = true
        · rw [if_pos huc] at h
          simp at h
        · rw [if_neg huc] at h
          simp only [Prod.mk.injEq] at h
          rw [← h.2.1]
          intro hcontra
          exact absurd hcontra (by simpa using huc)
  · intro op st m st' m' hw hinv happ
    cases op with
    | get k =>
      simp only [Op.apply, Except.ok.injEq, Prod.mk.injEq] at happ
      rw [← happ.1, ← happ.2]
      exact cacheInv_get hw hinv k
    | set k v => exact cacheInv_set hw hinv happ
    | remove k => exact cacheInv_remove hw hinv happ
    | clear => exact cacheInv_clear hw hinv happ
    | size =>
      simp only [Op.apply] at happ
      cases hcv : currentKeys st m with
      | error e =>
        rw [sizeSync_err hcv] at happ
        simp [Except.map] at happ
      | ok r =>
        obtain ⟨ks, st0⟩ := r
        obtain ⟨h0, -, -⟩ := currentKeys_self hcv
        subst h0
        rw [sizeSync_ok hcv] at happ
        simp only [Except.map, Except.ok.injEq, Prod.mk.injEq] at happ
        rw [← happ.1, ← happ.2]
        exact hinv
    | keyAt i =>
      simp only [Op.apply] at happ
      cases hcv : currentKeys st m with
      | error e =>
        rw [keySync_err i hcv] at happ
        simp [Except.map] at happ
      | ok r =>
        obtain ⟨ks, st0⟩ := r
        obtain ⟨h0, -, -⟩ := currentKeys_self hcv
        subst h0
        rw [keySync_ok i hcv] at happ
        simp only [Except.map, Except.ok.injEq, Prod.mk.injEq] at happ
        rw [← happ.1, ← happ.2]
        exact hinv

/-- Witness for C2: `initialize` with caching on over the empty medium
establishes the invariant, and a `set` preserves it from a concrete
invariant-satisfying state. -/
theorem cache_mirror_agrees_witness :
    CacheInv
      (initSync newInterface { name := some "ns", useCache := some true }
        Medium.empty).2.1
      (initSync newInterface { name := some "ns", useCache := some true }
        Medium.empty).2.2 ∧
    (WellNamed demoC ∧ CacheInv demoC demoM1 ∧
      Op.apply (.set "b" .null) demoC demoM1 = .ok (demoC2, demoM3) ∧
      CacheInv demoC2 demoM3) := by
  have hinvC : CacheInv demoC demoM1 := by
    intro _
    refine ⟨rfl, ?_⟩
    intro p v hp
    simp only [demoC] at hp
    by_cases hpa : p = "a"
    · subst hpa
      rw [if_pos rfl] at hp
      refine ⟨.wrapped (.num 7), rfl, ?_⟩
      injection hp
    · rw [if_neg hpa] at hp
      cases hp
  refine ⟨?_, rfl, hinvC, rfl, ?_⟩
  · exact cache_mirror_agrees.1 _ Medium.empty _ _ rfl
  · exact cache_mirror_agrees.2 (.set "b" .null) demoC demoM1 demoC2 demoM3
      rfl hinvC rfl


/-! ### Claim C1: last set wins -/

/-- One get/set step that does not set `k` preserves the fact that `k`
tracks the value `v`: the cache (when enabled) holds `v` at `k` and the
medium holds the wrapped `v` at `k`'s entry key. -/
theorem tracksVal_step {op : Op} {st st' : LocalStorageInterface}
    {m m' : Medium} {k : String} {v : JSVal}
    (hop : op.isGetSet) (hnk : ¬ op.setsKey k) (hw : WellNamed st)
    (hcv : st.useCache = true → st.keyValueCache k = some v)
    (hmv : m.getItem (st.keyName k) = some (.wrapped v))
    (happ : op.apply st m = .ok (st', m')) :
    WellNamed st' ∧ st'.storageName = st.storageName ∧
      (st'.useCache = true → st'.keyValueCache k = some v) ∧
      m'.getItem (st'.keyName k) = some (.wrapped v) := by
  obtain ⟨hsn, hkan, -⟩ := apply_preserves_config happ
  have hw' : WellNamed st' := by rw [WellNamed, hsn, hkan]; exact hw
  have hkn : st'.keyName k = st.keyName k := by
    simp [LocalStorageInterface.keyName, hsn]
  cases op with
  | get k2 =>
    simp only [Op.apply, Except.ok.injEq, Prod.mk.injEq] at happ
    obtain ⟨h1, h2⟩ := happ
    subst h2
    refine ⟨hw', hsn, ?_, by rw [hkn]; exact hmv⟩
    rcases getItemSync_shape st m k2 with hs | ⟨hc2, s, hm2, hs⟩
    · rw [← h1, hs]
      exact hcv
    · rw [← h1, hs]
      intro _
      simp only
      by_cases hk2 : k = k2
      · subst hk2
        rw [hm2] at hmv
        rw [if_pos rfl]
        injection hmv with hs2
        rw [hs2]
        rfl
      · rw [if_neg hk2]
        exact hcv hc2
  | set k2 v2 =>
    have hk2 : k2 ≠ k := by simpa [Op.setsKey] using hnk
    have hkne : st.keyName k ≠ st.keyName k2 := keyName_inj_ne (Ne.symm hk2)
    obtain ⟨ks, -, hcur, hc | hc⟩ := setItemSync_ok_shape happ <;>
      obtain ⟨-, hst, hm⟩ := hc
    · refine ⟨hw', hsn, ?_, ?_⟩
      · rw [hst]
        split
        · intro _
          simp only
          rw [if_neg (Ne.symm hk2)]
          next huc _ => exact hcv huc
        · exact hcv
      · rw [hkn, hm, Medium.getItem_setItem_ne _ hkne,
          Medium.getItem_setItem_ne _ (keyName_ne_keysArrayName hw k)]
        exact hmv
    · refine ⟨hw', hsn, ?_, ?_⟩
      · rw [hst]
        split
        · intro _
          simp only
          rw [if_neg (Ne.symm hk2)]
          next huc _ => exact hcv huc
        · exact hcv
      · rw [hkn, hm, Medium.getItem_setItem_ne _ hkne]
        exact hmv
  | remove k2 => cases hop
  | clear => cases hop
  | size => cases hop
  | keyAt i => cases hop

/-- One get/set step that does not set `k` preserves the fact that `k` is
absent: no cache entry and no medium entry. -/
theorem tracksNone_step {op : Op} {st st' : LocalStorageInterface}
    {m m' : Medium} {k : String}
    (hop : op.isGetSet) (hnk : ¬ op.setsKey k) (hw : WellNamed st)
    (hcv : st.keyValueCache k = none)
    (hmv : m.getItem (st.keyName k) = none)
    (happ : op.apply st m = .ok (st', m')) :
    WellNamed st' ∧ st'.storageName = st.storageName ∧
      st'.keyValueCache k = none ∧
      m'.getItem (st'.keyName k) = none := by
  obtain ⟨hsn, hkan, -⟩ := apply_preserves_config happ
  have hw' : WellNamed st' := by rw [WellNamed, hsn, hkan]; exact hw
  have hkn : st'.keyName k = st.keyName k := by
    simp [LocalStorageInterface.keyName, hsn]
  cases op with
  | get k2 =>
    simp only [Op.apply, Except.ok.injEq, Prod.mk.injEq] at happ
    obtain ⟨h1, h2⟩ := happ
    subst h2
    refine ⟨hw', hsn, ?_, by rw [hkn]; exact hmv⟩
    rcases getItemSync_shape st m k2 with hs | ⟨hc2, s, hm2, hs⟩
    · rw [← h1, hs]
      exact hcv
    · rw [← h1, hs]
      simp only
      by_cases hk2 : k = k2
      · subst hk2
        rw [hm2] at hmv
        cases hmv
      · rw [if_neg hk2]
        exact hcv
  | set k2 v2 =>
    have hk2 : k2 ≠ k := by simpa [Op.setsKey] using hnk
    have hkne : st.keyName k ≠ st.keyName k2 := keyName_inj_ne (Ne.symm hk2)
    obtain ⟨ks, -, hcur, hc | hc⟩ := setItemSync_ok_shape happ <;>
      obtain ⟨-, hst, hm⟩ := hc
    · refine ⟨hw', hsn, ?_, ?_⟩
      · rw [hst]
        split
        · simp only
          rw [if_neg (Ne.symm hk2)]
          exact hcv
        · exact hcv
      · rw [hkn, hm, Medium.getItem_setItem_ne _ hkne,
          Medium.getItem_setItem_ne _ (keyName_ne_keysArrayName hw k)]
        exact hmv
    · refine ⟨hw', hsn, ?_, ?_⟩
      · rw [hst]
        split
        · simp only
          rw [if_neg (Ne.symm hk2)]
          exact hcv
        · exact hcv
      · rw [hkn, hm, Medium.getItem_setItem_ne _ hkne]
        exact hmv
  | remove k2 => cases hop
  | clear => cases hop
  | size => cases hop
  | keyAt i => cases hop

theorem tracksVal_run {k : String} {v : JSVal} :
    ∀ (ops : List Op) (st : LocalStorageInterface) (m : Medium),
      (∀ op ∈ ops, op.isGetSet ∧ ¬ op.setsKey k) → WellNamed st →
      (st.useCache = true → st.keyValueCache k = some v) →
      m.getItem (st.keyName k) = some (.wrapped v) →
      WellNamed (runOps ops st m).1 ∧
        ((runOps ops st m).1.useCache = true →
          (runOps ops st m).1.keyValueCache k = some v) ∧
        (runOps ops st m).2.getItem ((runOps ops st m).1.keyName k) =
          some (.wrapped v)
  | [], st, m, _, hw, hcv, hmv => ⟨hw, hcv, hmv⟩
  | op :: rest, st, m, hops, hw, hcv, hmv => by
    have hop := hops op (by simp)
    have hrest : ∀ o ∈ rest, o.isGetSet ∧ ¬ o.setsKey k := by
      intro o ho
      exact hops o (by simp [ho])
    rw [runOps]
    cases happ : op.apply st m with
    | error e => exact tracksVal_run rest st m hrest hw hcv hmv
    | ok r =>
      obtain ⟨st', m'⟩ := r
      obtain ⟨hw', -, hcv', hmv'⟩ :=
        tracksVal_step hop.1 hop.2 hw hcv hmv happ
      exact tracksVal_run rest st' m' hrest hw' hcv' hmv'

theorem tracksNone_run {k : String} :
    ∀ (ops : List Op) (st : LocalStorageInterface) (m : Medium),
      (∀ op ∈ ops, op.isGetSet ∧ ¬ op.setsKey k) → WellNamed st →
      st.keyValueCache k = none →
      m.getItem (st.keyName k) = none →
      WellNamed (runOps ops st m).1 ∧
        (runOps ops st m).1.keyValueCache k = none ∧
        (runOps ops st m).2.getItem ((runOps ops st m).1.keyName k) = none
  | [], st, m, _, hw, hcv, hmv => ⟨hw, hcv, hmv⟩
  | op :: rest, st, m, hops, hw, hcv, hmv => by
    have hop := hops op (by simp)
    have hrest : ∀ o ∈ rest, o.isGetSet ∧ ¬ o.setsKey k := by
      intro o ho
      exact hops o (by simp [ho])
    rw [runOps]
    cases happ : op.apply st m with
    | error e => exact tracksNone_run rest st m hrest hw hcv hmv
    | ok r =>
      obtain ⟨st', m'⟩ := r
      obtain ⟨hw', -, hcv', hmv'⟩ :=
        tracksNone_step hop.1 hop.2 hw hcv hmv happ
      exact tracksNone_run rest st' m' hrest hw' hcv' hmv'

/-- Claim C1: within one initialized namespace, for every sequence of
get/set operations, `get k` returns the value of the most recent successful
`set k v` — including `v = null`, which is returned as `null` and never
confused with absence — provided the later operations never set `k` again;
and `get` on a key that was never set (no cache entry, no medium entry, no
set of `k` in the sequence) returns `undefined`. -/
theorem last_set_wins :
    (∀ st m k v st1 m1 ops, WellNamed st →
      setItemSync st m k v = .ok (st1, m1) →
      (∀ op ∈ ops, op.isGetSet ∧ ¬ op.setsKey k) →
      (getItemSync (runOps ops st1 m1).1 (runOps ops st1 m1).2 k).1 = v) ∧
    (∀ st m k ops, WellNamed st → st.keyValueCache k = none →
      m.getItem (st.keyName k) = none →
      (∀ op ∈ ops, op.isGetSet ∧ ¬ op.setsKey k) →
      (getItemSync (runOps ops st m).1 (runOps ops st m).2 k).1 = .undefined) := by
  constructor
  · intro st m k v st1 m1 ops hw hset hops
    have happ2 : Op.apply (.set k v) st m = .ok (st1, m1) := by
      simpa [Op.apply] using hset
    have hw1 : WellNamed st1 := by
      obtain ⟨hsn, hkan, -⟩ := apply_preserves_config happ2
      rw [WellNamed, hsn, hkan]
      exact hw
    obtain ⟨ks, hk, hcur, hc | hc⟩ := setItemSync_ok_shape hset <;>
      obtain ⟨-, hst, hm⟩ := hc <;>
    · have hcv1 : st1.useCache = true → st1.keyValueCache k = some v := by
        rw [hst]
        split
        · intro _
          simp
        · intro huc
          next hnuc => exact absurd huc hnuc
      have hkn1 : st1.keyName k = st.keyName k := by
        rw [hst]
        split <;> rfl
      have hmv1 : m1.getItem (st1.keyName k) = some (.wrapped v) := by
        rw [hkn1, hm]
        exact Medium.getItem_setItem_self _ _ _
      obtain ⟨hwr, hcvr, hmvr⟩ := tracksVal_run ops st1 m1 hops hw1 hcv1 hmv1
      by_cases hc2 : (runOps ops st1 m1).1.useCache = true
      · rw [getItemSync_hit hc2 (hcvr hc2)]
      · rw [getItemSync_miss_found (Or.inl (by simpa using hc2)) hmvr]
        rfl
  · intro st m k ops hw hcv hmv hops
    obtain ⟨hwr, hcvr, hmvr⟩ := tracksNone_run ops st m hops hw hcv hmv
    rw [getItemSync_miss_none (Or.inr hcvr) hmvr]

/-- Witness for C1: a stored `null` survives an interleaved get/set
sequence and is returned as `null`; a never-set key reads `undefined`. -/
theorem last_set_wins_witness :
    (WellNamed demoNC ∧
      setItemSync demoNC demoM0 "a" .null = .ok (demoNC, demoM4) ∧
      (getItemSync
        (runOps [.get "a", .set "b" (.num 1)] demoNC demoM4).1
        (runOps [.get "a", .set "b" (.num 1)] demoNC demoM4).2 "a").1 =
          .null) ∧
    (demoNC.keyValueCache "zz" = none ∧
      demoM0.getItem (demoNC.keyName "zz") = none ∧
      (getItemSync
        (runOps [.set "a" (.num 1), .get "zz"] demoNC demoM0).1
        (runOps [.set "a" (.num 1), .get "zz"] demoNC demoM0).2 "zz").1 =
          .undefined) := by
  have hops1 : ∀ op ∈ [Op.get "a", Op.set "b" (.num 1)],
      op.isGetSet ∧ ¬ op.setsKey "a" := by
    intro op hop
    simp only [List.mem_cons, List.mem_singleton] at hop
    rcases hop with rfl | rfl | hfalse
    · exact ⟨trivial, by simp [Op.setsKey]⟩
    · exact ⟨trivial, by simp [Op.setsKey]⟩
    · cases hfalse
  have hops2 : ∀ op ∈ [Op.set "a" (.num 1), Op.get "zz"],
      op.isGetSet ∧ ¬ op.setsKey "zz" := by
    intro op hop
    simp only [List.mem_cons, List.mem_singleton] at hop
    rcases hop with rfl | rfl | hfalse
    · exact ⟨trivial, by simp [Op.setsKey]⟩
    · exact ⟨trivial, by simp [Op.setsKey]⟩
    · cases hfalse
  exact ⟨⟨rfl, rfl, last_set_wins.1 demoNC demoM0 "a" .null demoNC demoM4
      [.get "a", .set "b" (.num 1)] rfl rfl hops1⟩,
    ⟨rfl, rfl, last_set_wins.2 demoNC demoM0 "zz"
      [.set "a" (.num 1), .get "zz"] rfl rfl rfl hops2⟩⟩

/-! ### Claim C6: insertion order -/

/-- Running a sequence of sets (of non-reserved keys) and removes from an
initialized state refines the spec-side index evolution: the resulting
current index is `specIndex ops ks`. -/
theorem index_refines :
    ∀ (ops : List Op) (st : LocalStorageInterface) (m : Medium)
      (ks : List String), WellNamed st →
      (∀ op ∈ ops, op.okSetRemove st.keysArrayName) →
      currentKeys st m = .ok (ks, st) →
      WellNamed (runOps ops st m).1 ∧
        (runOps ops st m).1.keysArrayName = st.keysArrayName ∧
        currentKeys (runOps ops st m).1 (runOps ops st m).2 =
          .ok (specIndex ops ks, (runOps ops st m).1)
  | [], st, m, ks, hw, _, hcur => ⟨hw, rfl, by rw [specIndex]; exact hcur⟩
  | .get k :: rest, st, m, ks, hw, hops, hcur => by
    exact absurd (hops (.get k) (by simp)) (by simp [Op.okSetRemove])
  | .size :: rest, st, m, ks, hw, hops, hcur => by
    exact absurd (hops .size (by simp)) (by simp [Op.okSetRemove])
  | .keyAt i :: rest, st, m, ks, hw, hops, hcur => by
    exact absurd (hops (.keyAt i) (by simp)) (by simp [Op.okSetRemove])
  | .clear :: rest, st, m, ks, hw, hops, hcur => by
    exact absurd (hops .clear (by simp)) (by simp [Op.okSetRemove])
  | .set k v :: rest, st, m, ks, hw, hops, hcur => by
    have hk : k ≠ st.keysArrayName := hops (.set k v) (by simp)
    have hkan := keyName_ne_keysArrayName hw k
    rw [runOps, specIndex]
    by_cases hmem : k ∈ ks
    · rw [show Op.apply (.set k v) st m = setItemSync st m k v from rfl,
        setItemSync_ok_old v hk hcur hmem, if_pos hmem]
      set st2 : LocalStorageInterface := if st.useCache = true then
        { st with keyValueCache := fun p => if p = k then some v
            else st.keyValueCache p }
        else st with hst2
      have hw2 : WellNamed st2 := by
        rw [hst2]
        split
        · exact hw
        · exact hw
      have hn2 : st2.keysArrayName = st.keysArrayName := by
        rw [hst2]
        split <;> rfl
      have hcur2 : currentKeys st2 (m.setItem (st.keyName k) (.wrapped v)) =
          .ok (ks, st2) := by
        obtain ⟨-, hksc, hmed⟩ := currentKeys_self hcur
        by_cases huc : st.useCache = true
        · have huc2 : st2.useCache = true := by
            rw [hst2, if_pos huc]
            exact huc
          rw [currentKeys_cache huc2]
          rw [hst2, if_pos huc]
          simp [← hksc huc]
        · have hucf : st.useCache = false := by simpa using huc
          have hst2e : st2 = st := by rw [hst2, if_neg (by simp [hucf])]
          rw [hst2e]
          refine currentKeys_nocache hucf ?_
          rw [Medium.getItem_setItem_ne _ (Ne.symm hkan)]
          exact hmed hucf
      obtain ⟨hw3, hn3, hcur3⟩ := index_refines rest st2 _ ks hw2
        (by
          intro o ho
          rw [hn2]
          exact hops o (by simp [ho])) hcur2
      exact ⟨hw3, by rw [hn3, hn2], hcur3⟩
    · rw [show Op.apply (.set k v) st m = setItemSync st m k v from rfl,
        setItemSync_ok_new v hk hcur hmem, if_neg hmem]
      set st2 : LocalStorageInterface := if st.useCache = true then
        { st with
          keysArrayCache := ks ++ [k],
          keyValueCache := fun p => if p = k then some v
            else st.keyValueCache p }
        else st with hst2
      set m2 : Medium := (m.setItem st.keysArrayName
        (.keysArr (ks ++ [k]))).setItem (st.keyName k) (.wrapped v) with hm2
      have hw2 : WellNamed st2 := by
        rw [hst2]
        split
        · exact hw
        · exact hw
      have hn2 : st2.keysArrayName = st.keysArrayName := by
        rw [hst2]
        split <;> rfl
      have hcur2 : currentKeys st2 m2 = .ok (ks ++ [k], st2) := by
        by_cases huc : st.useCache = true
        · have huc2 : st2.useCache = true := by
            rw [hst2, if_pos huc]
            exact huc
          rw [currentKeys_cache huc2]
          rw [hst2, if_pos huc]
        · have hucf : st.useCache = false := by simpa using huc
          have hst2e : st2 = st := by rw [hst2, if_neg (by simp [hucf])]
          rw [hst2e]
          refine currentKeys_nocache hucf ?_
          rw [hm2, Medium.getItem_setItem_ne _ (Ne.symm hkan),
            Medium.getItem_setItem_self]
      obtain ⟨hw3, hn3, hcur3⟩ := index_refines rest st2 m2 (ks ++ [k]) hw2
        (by
          intro o ho
          rw [hn2]
          exact hops o (by simp [ho])) hcur2
      exact ⟨hw3, by rw [hn3, hn2], hcur3⟩
  | .remove k :: rest, st, m, ks, hw, hops, hcur => by
    have hkan := keyName_ne_keysArrayName hw k
    rw [runOps, specIndex]
    rw [show Op.apply (.remove k) st m = removeItemSync st m k from rfl,
      removeItemSync_ok k hcur]
    set fks : List String := ks.filter (fun savedKey => savedKey != k)
      with hfks
    set st2 : LocalStorageInterface := if st.useCache = true then
      { st with
        keysArrayCache := fks,
        keyValueCache := fun p => if p = k then none else st.keyValueCache p }
      else st with hst2
    set m2 : Medium := (m.setItem st.keysArrayName
      (.keysArr fks)).removeItem (st.keyName k) with hm2
    have hw2 : WellNamed st2 := by
      rw [hst2]
      split
      · exact hw
      · exact hw
    have hn2 : st2.keysArrayName = st.keysArrayName := by
      rw [hst2]
      split <;> rfl
    have hcur2 : currentKeys st2 m2 = .ok (fks, st2) := by
      by_cases huc : st.useCache = true
      · have huc2 : st2.useCache = true := by
          rw [hst2, if_pos huc]
          exact huc
        rw [currentKeys_cache huc2]
        rw [hst2, if_pos huc]
      · have hucf : st.useCache = false := by simpa using huc
        have hst2e : st2 = st := by rw [hst2, if_neg (by simp [hucf])]
        rw [hst2e]
        refine currentKeys_nocache hucf ?_
        rw [hm2, Medium.getItem_removeItem_ne _ (Ne.symm hkan),
          Medium.getItem_setItem_self]
    obtain ⟨hw3, hn3, hcur3⟩ := index_refines rest st2 m2 fks hw2
      (by
        intro o ho
        rw [hn2]
        exact hops o (by simp [ho])) hcur2
    exact ⟨hw3, by rw [hn3, hn2], hcur3⟩

/-- Claim C6: the key index orders keys by first insertion.  Part one:
running any sequence of set/remove operations (sets of non-reserved keys)
from an initialized state leaves the current index equal to the spec-side
`specIndex` evolution, which appends a key on first insertion, keeps the
index — and hence every key's position — unchanged when an already-present
key is re-set, and filters a key out on remove.  Part two: `keyAt i` with
`0 ≤ i < size` returns the `i`-th surviving key, and `keyAt` with an
out-of-range index (negative or at least `size`) returns `undefined`
rather than raising an error. -/
theorem index_insertion_order :
    (∀ ops st m (ks : List String), WellNamed st →
      (∀ op ∈ ops, op.okSetRemove st.keysArrayName) →
      currentKeys st m = .ok (ks, st) →
      currentKeys (runOps ops st m).1 (runOps ops st m).2 =
        .ok (specIndex ops ks, (runOps ops st m).1)) ∧
    (∀ st m (ks : List String) (i : Int), currentKeys st m = .ok (ks, st) →
      (∀ h : 0 ≤ i ∧ i.toNat < ks.length,
        keySync st m i = .ok (some (ks.get ⟨i.toNat, h.2⟩), st)) ∧
      ((i < 0 ∨ ks.length ≤ i.toNat) →
        keySync st m i = .ok (none, st))) := by
  constructor
  · intro ops st m ks hw hops hcur
    exact (index_refines ops st m ks hw hops hcur).2.2
  · intro st m ks i hcur
    constructor
    · intro h
      rw [keySync_ok i hcur]
      have : listGetJS ks i = some (ks.get ⟨i.toNat, h.2⟩) := by
        rw [listGetJS, if_pos h.1, List.get?_eq_get h.2]
      rw [this]
    · intro h
      rw [keySync_ok i hcur]
      have : listGetJS ks i = none := by
        rcases h with h | h
        · rw [listGetJS, if_neg (by omega)]
        · rw [listGetJS]
          split
          · exact List.get?_eq_none.mpr h
          · rfl
      rw [this]

/-- Witness for C6: from an empty initialized namespace, the sequence
`set a, set b, set a, remove b` yields index `["a"]`; `keyAt 0` is `"a"`;
`keyAt (-1)` and `keyAt 5` are `undefined`. -/
theorem index_insertion_order_witness :
    (WellNamed demoNC ∧
      (∀ op ∈ ([.set "a" (.num 1), .set "b" (.num 2), .set "a" (.num 3),
          .remove "b"] : List Op), op.okSetRemove demoNC.keysArrayName) ∧
      currentKeys demoNC demoM0 = .ok ([], demoNC) ∧
      currentKeys
        (runOps [.set "a" (.num 1), .set "b" (.num 2), .set "a" (.num 3),
          .remove "b"] demoNC demoM0).1
        (runOps [.set "a" (.num 1), .set "b" (.num 2), .set "a" (.num 3),
          .remove "b"] demoNC demoM0).2 =
        .ok (specIndex [.set "a" (.num 1), .set "b" (.num 2),
          .set "a" (.num 3), .remove "b"] [],
          (runOps [.set "a" (.num 1), .set "b" (.num 2), .set "a" (.num 3),
            .remove "b"] demoNC demoM0).1)) ∧
    (currentKeys demoNC demoM1 = .ok (["a"], demoNC) ∧
      keySync demoNC demoM1 0 = .ok (some "a", demoNC) ∧
      keySync demoNC demoM1 (-1) = .ok (none, demoNC) ∧
      keySync demoNC demoM1 5 = .ok (none, demoNC)) := by
  have hops : ∀ op ∈ ([.set "a" (.num 1), .set "b" (.num 2),
      .set "a" (.num 3), .remove "b"] : List Op),
      op.okSetRemove demoNC.keysArrayName := by
    intro op hop
    simp only [List.mem_cons, List.mem_singleton] at hop
    rcases hop with rfl | rfl | rfl | rfl | hfalse
    · exact (by decide : "a" ≠ demoNC.keysArrayName)
    · exact (by decide : "b" ≠ demoNC.keysArrayName)
    · exact (by decide : "a" ≠ demoNC.keysArrayName)
    · exact trivial
    · cases hfalse
  refine ⟨⟨rfl, hops, rfl, ?_⟩, rfl, ?_, ?_, ?_⟩
  · exact index_insertion_order.1 _ demoNC demoM0 [] rfl hops rfl
  · have h := (index_insertion_order.2 demoNC demoM1 ["a"] 0 rfl).1
      ⟨by decide, by decide⟩
    simpa using h
  · exact (index_insertion_order.2 demoNC demoM1 ["a"] (-1) rfl).2
      (Or.inl (by decide))
  · exact (index_insertion_order.2 demoNC demoM1 ["a"] 5 rfl).2
      (Or.inr (by decide))

/-! ### Claim C9: initialize never throws -/

/-- Claim C9: `initSync` is embedded as the total function `initSyncF` over
a fallible medium, so it never throws; every exception the medium raises
inside the `try` block is captured and returned as the `Error` value.  For
every setup, instance state and fallible medium, with `kan` the computed
index key: (a) if the index read raises, the raised exception is returned
and the medium data is unchanged; (b) if the index is absent and the
empty-index write raises, the raised exception is returned and the medium
data is unchanged; (c) if the index is absent and the medium does not
raise, no error is returned and exactly the empty index has been written;
(d) if the index record is present and the read does not raise, no error is
returned, the medium is unchanged, and with caching enabled the index is
loaded into the cache mirror. -/
theorem init_captures_errors (st : LocalStorageInterface) (setup : Setup)
    (fm : FMedium) (kan : String)
    (hkan : kan = "__" ++ setup.name.getD defaultStorageName ++
      "-keys-array") :
    (fm.getFails kan = true →
      (initSyncF st setup fm).1 = some fm.exn ∧
      (initSyncF st setup fm).2.2 = fm) ∧
    (fm.getFails kan = false → fm.data kan = none →
      fm.setFails kan = true →
      (initSyncF st setup fm).1 = some fm.exn ∧
      (initSyncF st setup fm).2.2 = fm) ∧
    (fm.getFails kan = false → fm.data kan = none →
      fm.setFails kan = false →
      (initSyncF st setup fm).1 = none ∧
      (initSyncF st setup fm).2.2.data =
        fun p => if p = kan then (some (.keysArr [])) else fm.data p) ∧
    (∀ ks, fm.getFails kan = false → fm.data kan = some (.keysArr ks) →
      (initSyncF st setup fm).1 = none ∧
      (initSyncF st setup fm).2.2 = fm ∧
      (setup.useCache.getD defaultUseCache = true →
        (initSyncF st setup fm).2.1.keysArrayCache = ks)) := by
  subst hkan
  refine ⟨?_, ?_, ?_, ?_⟩
  · intro hg
    simp [initSyncF, FMedium.getItemF, hg, Bind.bind, Except.bind]
  · intro hg hd hs
    simp [initSyncF, FMedium.getItemF, FMedium.setItemF, hg, hd, hs,
      Bind.bind, Except.bind]
  · intro hg hd hs
    simp [initSyncF, FMedium.getItemF, FMedium.setItemF, hg, hd, hs,
      Bind.bind, Except.bind]
  · intro ks hg hd
    by_cases huc : setup.useCache.getD defaultUseCache = true <;>
      simp [initSyncF, FMedium.getItemF, hg, hd, huc, Bind.bind, Except.bind]

/-- Witness for C9: a raising read is captured and returned as the error
with the medium unchanged; a clean first initialization returns no error
and writes exactly the empty index. -/
theorem init_captures_errors_witness :
    (fmFailGet.getFails "__ns-keys-array" = true ∧
      (initSyncF newInterface { name := some "ns", useCache := some false }
        fmFailGet).1 = some fmFailGet.exn ∧
      (initSyncF newInterface { name := some "ns", useCache := some false }
        fmFailGet).2.2 = fmFailGet) ∧
    (fmOkEmpty.getFails "__ns-keys-array" = false ∧
      fmOkEmpty.data "__ns-keys-array" = none ∧
      fmOkEmpty.setFails "__ns-keys-array" = false ∧
      (initSyncF newInterface { name := some "ns", useCache := some false }
        fmOkEmpty).1 = none ∧
      (initSyncF newInterface { name := some "ns", useCache := some false }
        fmOkEmpty).2.2.data =
        fun p => if p = "__ns-keys-array" then (some (.keysArr []))
          else fmOkEmpty.data p) := by
  have h1 := (init_captures_errors newInterface
    { name := some "ns", useCache := some false } fmFailGet
    "__ns-keys-array" rfl).1 rfl
  have h2 := (init_captures_errors newInterface
    { name := some "ns", useCache := some false } fmOkEmpty
    "__ns-keys-array" rfl).2.2.1 rfl rfl rfl
  exact ⟨⟨rfl, h1.1, h1.2⟩, rfl, rfl, rfl, h2.1, h2.2⟩

end StorageFacadeLS
